import Mathlib

/-!
Verification of the carboncopy HTML-to-PDF core against its specification.

The definitions below are shallow embeddings of the TypeScript sources:
  packages/core/src/pdf/objects/PDFObject.ts   (PDFNumber, PDFString)
  src/pdf/PDFContentStream.ts                  (formatNumber, operators)
  utils/UnitConverter.ts                       (px/pt/mm conversions)
  packages/core/src/fonts/StandardFonts.ts     (font mapper, width tables)
  packages/core FontEmbedder                   (ToUnicode CMap, W array, textToCIDHex)
  src/fonts/FontSubsetter.ts                   (groupConsecutiveGlyphs)
  pdf/PDFPage.ts                               (draw calls, resource maps)

JavaScript numbers are modelled as exact rationals plus the three non-finite
values; strings as Lean strings or lists of characters (one element per code
point, as produced by the for..of iteration the sources use).
-/

namespace CarbonCopy

/-! ## Generic helpers: digits, padding, JS string primitives -/

/-- Lower-case digit characters, as produced by JavaScript `Number.prototype.toString(base)`. -/
def digitCharL : Nat → Char
  | 0 => '0' | 1 => '1' | 2 => '2' | 3 => '3' | 4 => '4'
  | 5 => '5' | 6 => '6' | 7 => '7' | 8 => '8' | 9 => '9'
  | 10 => 'a' | 11 => 'b' | 12 => 'c' | 13 => 'd' | 14 => 'e' | 15 => 'f'
  | _ => '?'

/-- Fuel-driven digit expansion (most significant digit first). -/
def natDigitsAux (b : Nat) : Nat → Nat → List Char
  | 0, _ => []
  | fuel+1, n => if n = 0 then [] else natDigitsAux b fuel (n / b) ++ [digitCharL (n % b)]

/-- `n.toString(b)` for natural `n`: base-`b` digits, `"0"` for zero. -/
def natToBase (b n : Nat) : List Char :=
  if n = 0 then ['0'] else natDigitsAux b n n

/-- `n.toString()` for an integer (decimal, `-` sign for negatives). -/
def intToDec (i : Int) : List Char :=
  if i < 0 then '-' :: natToBase 10 i.natAbs else natToBase 10 i.natAbs

/-- JavaScript `String.prototype.padStart(w, c)`. -/
def padLeft (c : Char) (w : Nat) (s : List Char) : List Char :=
  List.replicate (w - s.length) c ++ s

/-- The UTF-16 code unit JavaScript `charCodeAt(0)` returns for a character
obtained from for..of iteration: the code point itself in the BMP, and the
high surrogate for supplementary characters. -/
def jsCodeUnit (cp : Nat) : Nat :=
  if cp < 65536 then cp else 55296 + (cp - 65536) / 1024

/-- `code.toString(8).padStart(3, '0')`: octal digits, left-padded to 3
(padStart never truncates, so codes at or above 512 keep more digits). -/
def octal3 (code : Nat) : List Char :=
  padLeft '0' 3 (natToBase 8 code)

/-- `n.toString(16).padStart(4, '0').toUpperCase()`. -/
def hex4U (n : Nat) : List Char :=
  (padLeft '0' 4 (natToBase 16 n)).map Char.toUpper

/-- Substring test on character lists, modelling `String.prototype.includes`. -/
def listIncl : List Char → List Char → Bool
  | hay, needle =>
    needle.isPrefixOf hay ||
      match hay with
      | [] => false
      | _ :: t => listIncl t needle

/-- `family.includes(kw)` on lower-cased ASCII strings. -/
def strIncl (s kw : String) : Bool := listIncl s.data kw.data

/-- `String.prototype.toLowerCase` restricted to ASCII, which covers every
keyword the font mapper compares against. -/
def strLower (s : String) : String := String.mk (s.data.map Char.toLower)

/-! ## JavaScript numbers

A JS number is an exact rational or one of NaN, Infinity, -Infinity.
(The sources never build numbers whose behaviour depends on binary
floating-point rounding; the claims are stated over the exact values.) -/

inductive JSNumber where
  | val (q : ℚ)
  | nan
  | inf
  | negInf
deriving DecidableEq

/-- `Number.isInteger`. -/
def JSNumber.isInteger : JSNumber → Bool
  | .val q => q.den = 1
  | _ => false

/-- `Math.round`: round half toward positive infinity. -/
def jsRound (q : ℚ) : Int := Rat.floor (q + 1/2)

/-- The integer JavaScript `toFixed(5)` scales out of `|x|`:
the nearest integer to `|x| * 10^5`, ties picking the larger integer. -/
def fixed5N (q : ℚ) : Nat :=
  (Rat.floor ((if q < 0 then -q else q) * 100000 + 1/2)).toNat

/-- `x.toFixed(5)`: sign, integer digits, point, exactly five fraction digits;
`"NaN"` / `"Infinity"` / `"-Infinity"` for the non-finite values. -/
def JSNumber.toFixed5 : JSNumber → List Char
  | .val q =>
    (if q < 0 then ['-'] else []) ++
      natToBase 10 (fixed5N q / 100000) ++
      '.' :: padLeft '0' 5 (natToBase 10 (fixed5N q % 100000))
  | .nan => "NaN".data
  | .inf => "Infinity".data
  | .negInf => "-Infinity".data

/-- `Number.prototype.toString` as used in the integer branch of the
serializer (`"NaN"` etc. for non-finite values, decimal digits otherwise). -/
def JSNumber.jsToString : JSNumber → List Char
  | .val q => intToDec q.num
  | .nan => "NaN".data
  | .inf => "Infinity".data
  | .negInf => "-Infinity".data

/-- `s.replace(/\.?0+$/, '')`: removes the maximal run of trailing zero
characters together with a decimal point standing immediately before it. -/
def stripTrailZeroDot (cs : List Char) : List Char :=
  let r := cs.reverse
  if (r.takeWhile (fun c => c = '0')).isEmpty then cs
  else
    let rest := r.dropWhile (fun c => c = '0')
    if rest.head? = some '.' then rest.tail.reverse else rest.reverse

/-- `PDFNumber.serialize` (PDFObject.ts): integers print without a decimal
point, everything else goes through `toFixed(5)` and the trailing-zero strip. -/
def PDFNumber.serialize (x : JSNumber) : String :=
  if x.isInteger then String.mk x.jsToString
  else String.mk (stripTrailZeroDot x.toFixed5)

/-- `formatNumber` (PDFContentStream.ts): same rule as `PDFNumber.serialize`. -/
def formatNumber (n : JSNumber) : String :=
  if n.isInteger then String.mk n.jsToString
  else String.mk (stripTrailZeroDot n.toFixed5)

/-- Shorthand for formatting a finite value in content-stream operators. -/
def fmtQ (q : ℚ) : String := formatNumber (.val q)

/-! ## PDF string serialization (PDFObject.ts `PDFString.serialize`) -/

/-- Escape of one character of a literal string: `(`, `)` and `\` get a
backslash; code units outside 32..126 become `\` plus octal digits;
everything else is emitted verbatim. -/
def pdfEscapeChar (c : Char) : List Char :=
  if c = '(' || c = ')' || c = '\\' then ['\\', c]
  else
    let code := jsCodeUnit c.toNat
    if code < 32 || code > 126 then '\\' :: octal3 code
    else [c]

/-- `PDFString.serialize`: escaped characters wrapped in parentheses. -/
def PDFString.serialize (s : String) : String :=
  String.mk ('(' :: (s.data.map pdfEscapeChar).flatten ++ [')'])

/-- Content-stream `escapeString` (PDFContentStream.ts): like the object
model rule but with `\n`, `\r`, `\t` mnemonics checked before the octal
fallback. -/
def csEscapeChar (c : Char) : List Char :=
  if c = '(' || c = ')' || c = '\\' then ['\\', c]
  else
    let code := jsCodeUnit c.toNat
    if code = 10 then ['\\', 'n']
    else if code = 13 then ['\\', 'r']
    else if code = 9 then ['\\', 't']
    else if code < 32 || code > 126 then '\\' :: octal3 code
    else [c]

def csEscapeString (s : String) : String :=
  String.mk ((s.data.map csEscapeChar).flatten)

/-- `stringToUtf16BeHex`: BOM followed by 4 upper-case hex digits per
UTF-16 code unit. -/
def stringToUtf16BeHex (s : String) : String :=
  String.mk ("FEFF".data ++ (s.data.map (fun c => hex4U (jsCodeUnit c.toNat))).flatten)

/-! ## UnitConverter (utils/UnitConverter.ts) -/

/-- `pxToPt`: multiply by 72/96. -/
def UnitConverter.pxToPt (px : ℚ) : ℚ := px * (72 / 96)

/-- `ptToPx`: multiply by 96/72. -/
def UnitConverter.ptToPx (pt : ℚ) : ℚ := pt * (96 / 72)

/-- `mmToPt`: multiply by 72/25.4. -/
def UnitConverter.mmToPt (mm : ℚ) : ℚ := mm * (72 / (254 / 10))

/-- `ptToMm`: multiply by 25.4/72. -/
def UnitConverter.ptToMm (pt : ℚ) : ℚ := pt * ((254 / 10) / 72)

/-! ## Standard font mapper (packages/core/src/fonts/StandardFonts.ts) -/

/-- `fontWeight: number | string`. -/
inductive WeightV where
  | num (q : ℚ)
  | str (s : String)
deriving DecidableEq

/-- Character class for the whitespace `Number()` trims. -/
def jsIsSpace (c : Char) : Bool :=
  c = ' ' || c = '\t' || c = '\n' || c = '\r' || c = '\x0b' || c = '\x0c'

def decDigitVal (c : Char) : Option Nat :=
  if '0' ≤ c ∧ c ≤ '9' then some (c.toNat - 48) else none

def hexDigitVal (c : Char) : Option Nat :=
  if '0' ≤ c ∧ c ≤ '9' then some (c.toNat - 48)
  else if 'a' ≤ c ∧ c ≤ 'f' then some (c.toNat - 87)
  else if 'A' ≤ c ∧ c ≤ 'F' then some (c.toNat - 55)
  else none

/-- Parse a nonempty digit run with the given per-digit reader. -/
def parseRun (f : Char → Option Nat) (b : Nat) : List Char → Option (Nat × List Char)
  | [] => none
  | c :: t =>
    match f c with
    | none => none
    | some d =>
      match parseRunAux f b t d with
      | (v, rest) => some (v, rest)
where
  parseRunAux (f : Char → Option Nat) (b : Nat) : List Char → Nat → Nat × List Char
    | [], acc => (acc, [])
    | c :: t, acc =>
      match f c with
      | none => (acc, c :: t)
      | some d => parseRunAux f b t (acc * b + d)

/-- Decimal mantissa: `digits`, `digits.`, `digits.digits` or `.digits`,
returned as a rational together with the remaining input. -/
def parseDecMantissa (cs : List Char) : Option (ℚ × List Char) :=
  match parseRun decDigitVal 10 cs with
  | some (ip, rest) =>
    match rest with
    | '.' :: rest2 =>
      match parseRun decDigitVal 10 rest2 with
      | some (fp, rest3) =>
        some ((ip : ℚ) + (fp : ℚ) / (10 : ℚ) ^ (rest2.length - rest3.length), rest3)
      | none => some ((ip : ℚ), rest2)
    | _ => some ((ip : ℚ), rest)
  | none =>
    match cs with
    | '.' :: rest2 =>
      match parseRun decDigitVal 10 rest2 with
      | some (fp, rest3) =>
        some ((fp : ℚ) / (10 : ℚ) ^ (rest2.length - rest3.length), rest3)
      | none => none
    | _ => none

/-- Optional exponent part `e|E [+|-] digits`. -/
def parseExponent (cs : List Char) : Option (Int × List Char) :=
  match cs with
  | 'e' :: rest | 'E' :: rest =>
    match rest with
    | '+' :: r2 => (parseRun decDigitVal 10 r2).map (fun p => ((p.1 : Int), p.2))
    | '-' :: r2 => (parseRun decDigitVal 10 r2).map (fun p => (-(p.1 : Int), p.2))
    | r2 => (parseRun decDigitVal 10 r2).map (fun p => ((p.1 : Int), p.2))
  | _ => none

def zpow10 (e : Int) : ℚ :=
  if e < 0 then 1 / (10 : ℚ) ^ e.natAbs else (10 : ℚ) ^ e.natAbs

/-- `Number(s)` for a string: trim, empty means 0, `0x/0o/0b` integer
literals (no sign), otherwise optional sign followed by `Infinity` or a
decimal literal with optional exponent; anything else is NaN. -/
def jsStringToNumber (s : String) : JSNumber :=
  let t := (s.data.dropWhile jsIsSpace).reverse.dropWhile jsIsSpace |>.reverse
  match t with
  | [] => .val 0
  | '0' :: x :: rest =>
    if x = 'x' || x = 'X' then
      match parseRun hexDigitVal 16 rest with
      | some (v, []) => .val v
      | _ => .nan
    else if x = 'o' || x = 'O' then
      match parseRun (fun c => if '0' ≤ c ∧ c ≤ '7' then some (c.toNat - 48) else none) 8 rest with
      | some (v, []) => .val v
      | _ => .nan
    else if x = 'b' || x = 'B' then
      match parseRun (fun c => if c = '0' ∨ c = '1' then some (c.toNat - 48) else none) 2 rest with
      | some (v, []) => .val v
      | _ => .nan
    else jsDecLiteral t
  | _ => jsDecLiteral t
where
  jsDecLiteral (t : List Char) : JSNumber :=
    let core := fun (u : List Char) (sgn : ℚ) =>
      if u = "Infinity".data then
        if sgn < 0 then JSNumber.negInf else JSNumber.inf
      else
        match parseDecMantissa u with
        | some (m, rest) =>
          match rest with
          | [] => JSNumber.val (sgn * m)
          | _ =>
            match parseExponent rest with
            | some (e, []) => JSNumber.val (sgn * m * zpow10 e)
            | _ => JSNumber.nan
        | none => JSNumber.nan
    match t with
    | '+' :: u => core u 1
    | '-' :: u => core u (-1)
    | u => core u 1

/-- `Number(fontWeight)`: identity on numbers, string coercion otherwise. -/
def weightToNumber : WeightV → JSNumber
  | .num q => .val q
  | .str s => jsStringToNumber s

/-- `x >= 700` on JS numbers (false for NaN). -/
def jsGe700 : JSNumber → Bool
  | .val q => 700 ≤ q
  | .inf => true
  | _ => false

/-- `fontWeight === "bold" || Number(fontWeight) >= 700`. -/
def isBoldWeight (w : WeightV) : Bool :=
  (match w with | .str s => s = "bold" | .num _ => false) || jsGe700 (weightToNumber w)

/-- `fontStyle === "italic" || fontStyle === "oblique"`. -/
def isItalicStyle (style : String) : Bool :=
  style = "italic" || style = "oblique"

/-- The monospace keyword test of `mapCSSFontToStandard`. -/
def isMonospaceFamily (family : String) : Bool :=
  strIncl family "monospace" || strIncl family "courier" || strIncl family "consolas" ||
  strIncl family "monaco" || strIncl family "menlo" || strIncl family "source code" ||
  strIncl family "fira code" || strIncl family "jetbrains"

/-- The serif keyword test of `mapCSSFontToStandard`, with the sans-serif guard. -/
def isSerifFamily (family : String) : Bool :=
  !strIncl family "sans-serif" &&
    (strIncl family "serif" || strIncl family "times" || strIncl family "georgia" ||
     strIncl family "palatino" || strIncl family "cambria" || strIncl family "book")

/-- `mapCSSFontToStandard` (packages/core/src/fonts/StandardFonts.ts). -/
def mapCSSFontToStandard (fontFamily : String) (fontWeight : WeightV) (fontStyle : String) :
    String :=
  let family := strLower fontFamily
  let isBold := isBoldWeight fontWeight
  let isItalic := isItalicStyle fontStyle
  if isMonospaceFamily family then
    if isBold && isItalic then "Courier-BoldOblique"
    else if isBold then "Courier-Bold"
    else if isItalic then "Courier-Oblique"
    else "Courier"
  else if isSerifFamily family then
    if isBold && isItalic then "Times-BoldItalic"
    else if isBold then "Times-Bold"
    else if isItalic then "Times-Italic"
    else "Times-Roman"
  else
    if isBold && isItalic then "Helvetica-BoldOblique"
    else if isBold then "Helvetica-Bold"
    else if isItalic then "Helvetica-Oblique"
    else "Helvetica"

/-! ## Standard font width tables and measurement
(packages/core/src/fonts/StandardFonts.ts) -/

/-- The Helvetica width table, literally `HelveticaWidths` from the source. -/
def HelveticaWidths : Nat → Option ℚ
  | 32 => some 278 | 33 => some 278 | 34 => some 355 | 35 => some 556
  | 36 => some 556 | 37 => some 889 | 38 => some 667 | 39 => some 191
  | 40 => some 333 | 41 => some 333 | 42 => some 389 | 43 => some 584
  | 44 => some 278 | 45 => some 333 | 46 => some 278 | 47 => some 278
  | 48 => some 556 | 49 => some 556 | 50 => some 556 | 51 => some 556
  | 52 => some 556 | 53 => some 556 | 54 => some 556 | 55 => some 556
  | 56 => some 556 | 57 => some 556 | 58 => some 278 | 59 => some 278
  | 60 => some 584 | 61 => some 584 | 62 => some 584 | 63 => some 556
  | 64 => some 1015 | 65 => some 667 | 66 => some 667 | 67 => some 722
  | 68 => some 722 | 69 => some 667 | 70 => some 611 | 71 => some 778
  | 72 => some 722 | 73 => some 278 | 74 => some 500 | 75 => some 667
  | 76 => some 556 | 77 => some 833 | 78 => some 722 | 79 => some 778
  | 80 => some 667 | 81 => some 778 | 82 => some 722 | 83 => some 667
  | 84 => some 611 | 85 => some 722 | 86 => some 667 | 87 => some 944
  | 88 => some 667 | 89 => some 667 | 90 => some 611 | 91 => some 278
  | 92 => some 278 | 93 => some 278 | 94 => some 469 | 95 => some 556
  | 96 => some 333 | 97 => some 556 | 98 => some 556 | 99 => some 500
  | 100 => some 556 | 101 => some 556 | 102 => some 278 | 103 => some 556
  | 104 => some 556 | 105 => some 222 | 106 => some 222 | 107 => some 500
  | 108 => some 222 | 109 => some 833 | 110 => some 556 | 111 => some 556
  | 112 => some 556 | 113 => some 556 | 114 => some 333 | 115 => some 500
  | 116 => some 278 | 117 => some 556 | 118 => some 500 | 119 => some 722
  | 120 => some 500 | 121 => some 500 | 122 => some 500 | 123 => some 334
  | 124 => some 260 | 125 => some 334 | 126 => some 584
  | _ => none

/-- The Times-Roman width table, literally `TimesRomanWidths` from the source. -/
def TimesRomanWidths : Nat → Option ℚ
  | 32 => some 250 | 33 => some 333 | 34 => some 408 | 35 => some 500
  | 36 => some 500 | 37 => some 833 | 38 => some 778 | 39 => some 180
  | 40 => some 333 | 41 => some 333 | 42 => some 500 | 43 => some 564
  | 44 => some 250 | 45 => some 333 | 46 => some 250 | 47 => some 278
  | 48 => some 500 | 49 => some 500 | 50 => some 500 | 51 => some 500
  | 52 => some 500 | 53 => some 500 | 54 => some 500 | 55 => some 500
  | 56 => some 500 | 57 => some 500 | 58 => some 278 | 59 => some 278
  | 60 => some 564 | 61 => some 564 | 62 => some 564 | 63 => some 444
  | 64 => some 921 | 65 => some 722 | 66 => some 667 | 67 => some 667
  | 68 => some 722 | 69 => some 611 | 70 => some 556 | 71 => some 722
  | 72 => some 722 | 73 => some 333 | 74 => some 389 | 75 => some 722
  | 76 => some 611 | 77 => some 889 | 78 => some 722 | 79 => some 722
  | 80 => some 556 | 81 => some 722 | 82 => some 667 | 83 => some 556
  | 84 => some 611 | 85 => some 722 | 86 => some 722 | 87 => some 944
  | 88 => some 722 | 89 => some 722 | 90 => some 611 | 91 => some 333
  | 92 => some 278 | 93 => some 333 | 94 => some 469 | 95 => some 500
  | 96 => some 333 | 97 => some 444 | 98 => some 500 | 99 => some 444
  | 100 => some 500 | 101 => some 444 | 102 => some 333 | 103 => some 500
  | 104 => some 500 | 105 => some 278 | 106 => some 278 | 107 => some 500
  | 108 => some 278 | 109 => some 778 | 110 => some 500 | 111 => some 500
  | 112 => some 500 | 113 => some 500 | 114 => some 333 | 115 => some 389
  | 116 => some 278 | 117 => some 500 | 118 => some 500 | 119 => some 722
  | 120 => some 500 | 121 => some 500 | 122 => some 444 | 123 => some 480
  | 124 => some 200 | 125 => some 480 | 126 => some 541
  | _ => none

/-- The Courier width table: the source fills codes 32..126 with 600. -/
def CourierWidths (code : Nat) : Option ℚ :=
  if 32 ≤ code ∧ code ≤ 126 then some 600 else none

inductive FontType where
  | serif
  | sansSerif
  | monospace
deriving DecidableEq

/-- `getFontWidths`. -/
def getFontWidths : FontType → Nat → Option ℚ
  | .serif => TimesRomanWidths
  | .monospace => CourierWidths
  | .sansSerif => HelveticaWidths

/-- The family-specific default width of `measureTextWidth`. -/
def defaultWidthOf : FontType → ℚ
  | .monospace => 600
  | .serif => 500
  | .sansSerif => 556

/-- `measureTextWidth(text, fontSize, fontType)`: sum the per-character table
widths (default for missing codes), then scale by `fontSize/1000`.
The text is a list of code points; `charCodeAt(0)` yields the UTF-16 unit. -/
def measureTextWidth (text : List Nat) (fontSize : ℚ) (fontType : FontType) : ℚ :=
  let widths := getFontWidths fontType
  let total := (text.map (fun cp => (widths (jsCodeUnit cp)).getD (defaultWidthOf fontType))).sum
  (total / 1000) * fontSize

/-! ## CID font embedding (FontEmbedder / FontSubsetter) -/

/-- A glyph as returned by `otFont.charToGlyph`. -/
structure GlyphM where
  index : Nat
  advanceWidth : Option ℚ
deriving DecidableEq

/-- The slice of a parsed font the embedder reads. -/
structure LoadedFontM where
  unitsPerEm : ℚ
  charToGlyph : Nat → GlyphM

/-- Stable sort of entries by their first (glyph-ID) component, modelling
`arr.sort((a, b) => a.gid - b.gid)`. -/
def sortByFst {β : Type} (l : List (Nat × β)) : List (Nat × β) :=
  List.insertionSort (fun a b => a.1 ≤ b.1) l

instance instIsTotalFstLe {β : Type} :
    IsTotal (Nat × β) (fun a b => a.1 ≤ b.1) :=
  ⟨fun a b => Nat.le_total a.1 b.1⟩

instance instIsTransFstLe {β : Type} :
    IsTrans (Nat × β) (fun a b => a.1 ≤ b.1) :=
  ⟨fun _ _ _ h h₂ => le_trans h h₂⟩

/-- The `mappings` list of `createToUnicodeCMap`: one `(gid, codePoint)` pair
per used code point whose glyph index is positive. -/
def cmapMappingsRaw (f : LoadedFontM) (used : List Nat) : List (Nat × Nat) :=
  used.filterMap (fun cp =>
    let g := f.charToGlyph cp
    if 0 < g.index then some (g.index, cp) else none)

/-- The mappings after the `sort((a, b) => a.gid - b.gid)` of `buildToUnicodeCMap`. -/
def cmapMappings (f : LoadedFontM) (used : List Nat) : List (Nat × Nat) :=
  sortByFst (cmapMappingsRaw f used)

/-- One `bfchar` entry line: `<GGGG> <UUUU>`. -/
def bfcharLine (gid uni : Nat) : String :=
  String.mk ('<' :: hex4U gid ++ '>' :: ' ' :: '<' :: hex4U uni ++ ['>'])

/-- Chunking into slices of 100, modelling the
`for (let i = 0; i < mappings.length; i += 100)` loop (fuel recursion so
that concrete instances evaluate). -/
def chunkAux {α : Type} : Nat → List α → List (List α)
  | 0, _ => []
  | _, [] => []
  | fuel+1, l => l.take 100 :: chunkAux fuel (l.drop 100)

def chunk100 {α : Type} (l : List α) : List (List α) := chunkAux l.length l

/-- The fixed CMap prologue of `buildToUnicodeCMap`. -/
def cmapHeader : List String :=
  ["/CIDInit /ProcSet findresource begin",
   "12 dict begin",
   "begincmap",
   "/CIDSystemInfo <<",
   "  /Registry (Adobe)",
   "  /Ordering (UCS)",
   "  /Supplement 0",
   ">> def",
   "/CMapName /Adobe-Identity-UCS def",
   "/CMapType 2 def",
   "1 begincodespacerange",
   "<0000> <FFFF>",
   "endcodespacerange"]

/-- The fixed CMap epilogue of `buildToUnicodeCMap`. -/
def cmapFooter : List String :=
  ["endcmap",
   "CMapName currentdict /CMap defineresource pop",
   "end",
   "end"]

/-- `buildToUnicodeCMap` as its list of lines: header, `bfchar` blocks of at
most 100 entries, footer (the source joins these lines with newlines). -/
def buildToUnicodeCMap (mappings : List (Nat × Nat)) : List String :=
  cmapHeader ++
    ((chunk100 (sortByFst mappings)).map (fun c =>
      (String.mk (natToBase 10 c.length) ++ " beginbfchar") ::
        c.map (fun m => bfcharLine m.1 m.2) ++ ["endbfchar"])).flatten ++
    cmapFooter

/-- The ToUnicode CMap generated for a font and a set of used code points
(`createToUnicodeCMap` composed with `buildToUnicodeCMap`). -/
def toUnicodeCMapLines (f : LoadedFontM) (used : List Nat) : List String :=
  buildToUnicodeCMap (cmapMappingsRaw f used)

/-- All code points `(g, u)` pairs with glyph ID `g` among the CMap entries. -/
def cmapLookup (entries : List (Nat × Nat)) (gid : Nat) : List Nat :=
  entries.filterMap (fun e => if e.1 = gid then some e.2 else none)

/-- `textToCIDHex`: each character becomes the 4-digit upper-case hex of its
glyph index. -/
def textToCIDHex (f : LoadedFontM) (text : List Nat) : String :=
  String.mk ((text.map (fun cp => hex4U (f.charToGlyph cp).index)).flatten)

/-- The width entries `buildWidthArray` collects before grouping: glyph ID
and `Math.round(advanceWidth * scale)` for every used code point with a
positive glyph index, sorted by glyph ID. -/
def collectWidths (f : LoadedFontM) (used : List Nat) (scale : ℚ) : List (Nat × Int) :=
  sortByFst (used.filterMap (fun cp =>
    let g := f.charToGlyph cp
    if 0 < g.index then some (g.index, jsRound ((g.advanceWidth.getD 0) * scale)) else none))

/-- Inner loop of the consecutive-GID grouping: collect widths as long as the
glyph IDs increase by exactly one, returning the run and the remainder. -/
def takeRun (prev : Nat) : List (Nat × Int) → List Int × List (Nat × Int)
  | [] => ([], [])
  | e :: rest =>
    if e.1 = prev + 1 then
      let pr := takeRun e.1 rest
      (e.2 :: pr.1, pr.2)
    else ([], e :: rest)

/-- Fuel-driven grouping loop (fuel bounds the list length). -/
def groupAux : Nat → List (Nat × Int) → List (Nat × List Int)
  | 0, _ => []
  | _, [] => []
  | fuel+1, e :: rest =>
    let pr := takeRun e.1 rest
    (e.1, e.2 :: pr.1) :: groupAux fuel pr.2

/-- `groupConsecutiveGlyphs` (FontSubsetter.ts): group width entries whose
glyph IDs form maximal strictly consecutive runs. -/
def groupConsecutiveGlyphs (widths : List (Nat × Int)) : List (Nat × List Int) :=
  groupAux widths.length widths

/-- One element of the PDF `W` array: a start glyph ID or a width list. -/
inductive WElem where
  | gid (g : Nat)
  | ws (l : List Int)
deriving DecidableEq

/-- `buildWidthArray` (FontEmbedder): collect and sort the used width
entries, then emit `startGid [w0 w1 ...]` per consecutive run (the inline
loop in the source is the same algorithm as `groupConsecutiveGlyphs`). -/
def buildWidthArray (f : LoadedFontM) (used : List Nat) (scale : ℚ) : List WElem :=
  ((groupConsecutiveGlyphs (collectWidths f used scale)).map
    (fun g => [WElem.gid g.1, WElem.ws g.2])).flatten

/-- Reference expansion of a width group back into `(gid, width)` entries. -/
def expandFrom (s : Nat) : List Int → List (Nat × Int)
  | [] => []
  | w :: ws => (s, w) :: expandFrom (s + 1) ws

def expandGroup (g : Nat × List Int) : List (Nat × Int) := expandFrom g.1 g.2

/-! ## PDFPage and the content stream (PDFPage.ts, PDFContentStream.ts) -/

structure RGBColor where
  r : ℚ
  g : ℚ
  b : ℚ
deriving DecidableEq

structure DrawTextOptions where
  font : String
  fontSize : ℚ
  color : Option RGBColor := none
  targetWidth : Option ℚ := none
  pdfWidth : Option ℚ := none
  letterSpacing : Option ℚ := none

structure DrawLineOptions where
  color : Option RGBColor := none
  width : Option ℚ := none

structure DrawRectOptions where
  fill : Option RGBColor := none
  stroke : Option RGBColor := none
  lineWidth : Option ℚ := none

/-- The page state: media box size, the two per-page resource maps, the
current text state and the accumulated content-stream commands. -/
structure PDFPage where
  width : ℚ
  height : ℚ
  fonts : List (String × Nat)
  images : List (String × Nat)
  currentFont : Option String
  currentFontSize : ℚ
  commands : List String

/-- The `PDFPage` constructor: empty resources, no current font, size 12. -/
def PDFPage.mk0 (w h : ℚ) : PDFPage :=
  { width := w, height := h, fonts := [], images := [],
    currentFont := none, currentFontSize := 12, commands := [] }

/-- `Map.prototype.set`: replace an existing binding or append a new one. -/
def setAssoc (m : List (String × Nat)) (k : String) (v : Nat) : List (String × Nat) :=
  if m.any (fun e => e.1 = k) then m.map (fun e => if e.1 = k then (k, v) else e)
  else m ++ [(k, v)]

/-- `addFont(name, ref)`. -/
def PDFPage.addFont (pg : PDFPage) (n : String) (ref : Nat) : PDFPage :=
  { pg with fonts := setAssoc pg.fonts n ref }

/-- `addImage(name, ref)`. -/
def PDFPage.addImage (pg : PDFPage) (n : String) (ref : Nat) : PDFPage :=
  { pg with images := setAssoc pg.images n ref }

/-- `commands.push(c)` on the page content stream. -/
def PDFPage.push (pg : PDFPage) (c : String) : PDFPage :=
  { pg with commands := pg.commands ++ [c] }

def PDFPage.opBeginText (pg : PDFPage) : PDFPage := pg.push "BT"
def PDFPage.opEndText (pg : PDFPage) : PDFPage := pg.push "ET"
def PDFPage.opSaveState (pg : PDFPage) : PDFPage := pg.push "q"
def PDFPage.opRestoreState (pg : PDFPage) : PDFPage := pg.push "Q"

def PDFPage.opSetFont (pg : PDFPage) (name : String) (size : ℚ) : PDFPage :=
  pg.push ("/" ++ name ++ " " ++ fmtQ size ++ " Tf")

def PDFPage.opMoveText (pg : PDFPage) (x y : ℚ) : PDFPage :=
  pg.push (fmtQ x ++ " " ++ fmtQ y ++ " Td")

def PDFPage.opShowText (pg : PDFPage) (text : String) : PDFPage :=
  pg.push ("(" ++ csEscapeString text ++ ") Tj")

def PDFPage.opShowTextHex (pg : PDFPage) (text : String) : PDFPage :=
  pg.push ("<" ++ stringToUtf16BeHex text ++ "> Tj")

def PDFPage.opShowTextHexRaw (pg : PDFPage) (hexString : String) : PDFPage :=
  pg.push ("<" ++ hexString ++ "> Tj")

def PDFPage.opSetCharacterSpacing (pg : PDFPage) (s : ℚ) : PDFPage :=
  pg.push (fmtQ s ++ " Tc")

def PDFPage.opSetFillColorRGB (pg : PDFPage) (r g b : ℚ) : PDFPage :=
  pg.push (fmtQ r ++ " " ++ fmtQ g ++ " " ++ fmtQ b ++ " rg")

def PDFPage.opSetStrokeColorRGB (pg : PDFPage) (r g b : ℚ) : PDFPage :=
  pg.push (fmtQ r ++ " " ++ fmtQ g ++ " " ++ fmtQ b ++ " RG")

def PDFPage.opSetLineWidth (pg : PDFPage) (w : ℚ) : PDFPage :=
  pg.push (fmtQ w ++ " w")

def PDFPage.opMoveTo (pg : PDFPage) (x y : ℚ) : PDFPage :=
  pg.push (fmtQ x ++ " " ++ fmtQ y ++ " m")

def PDFPage.opLineTo (pg : PDFPage) (x y : ℚ) : PDFPage :=
  pg.push (fmtQ x ++ " " ++ fmtQ y ++ " l")

def PDFPage.opRect (pg : PDFPage) (x y w h : ℚ) : PDFPage :=
  pg.push (fmtQ x ++ " " ++ fmtQ y ++ " " ++ fmtQ w ++ " " ++ fmtQ h ++ " re")

def PDFPage.opStroke (pg : PDFPage) : PDFPage := pg.push "S"
def PDFPage.opFill (pg : PDFPage) : PDFPage := pg.push "f"
def PDFPage.opFillAndStroke (pg : PDFPage) : PDFPage := pg.push "B"
def PDFPage.opClip (pg : PDFPage) : PDFPage := pg.push "W"
def PDFPage.opEndPath (pg : PDFPage) : PDFPage := pg.push "n"

def PDFPage.opTransform (pg : PDFPage) (a b c d e f : ℚ) : PDFPage :=
  pg.push (fmtQ a ++ " " ++ fmtQ b ++ " " ++ fmtQ c ++ " " ++ fmtQ d ++ " " ++
    fmtQ e ++ " " ++ fmtQ f ++ " cm")

def PDFPage.opDrawImage (pg : PDFPage) (imageName : String) : PDFPage :=
  pg.push ("/" ++ imageName ++ " Do")

/-- The `Math.max(-2, Math.min(2, x))` clamp of `drawText`. -/
def clamp2 (x : ℚ) : ℚ := max (-2) (min 2 x)

/-- The font-setting step shared by the three text draw calls: emit `Tf` and
update the cached font only when the font or size changes. -/
def PDFPage.setFontIfChanged (pg : PDFPage) (font : String) (fontSize : ℚ) : PDFPage :=
  if pg.currentFont ≠ some font ∨ pg.currentFontSize ≠ fontSize then
    { pg.opSetFont font fontSize with currentFont := some font, currentFontSize := fontSize }
  else pg

/-- `drawText` (PDFPage.ts). The text argument carries its code points; its
`length` is the number of characters. -/
def PDFPage.drawText (pg : PDFPage) (text : String) (x y : ℚ) (o : DrawTextOptions) : PDFPage :=
  let p1 := pg.opBeginText
  let p2 := match o.color with
    | some c => p1.opSetFillColorRGB c.r c.g c.b
    | none => p1
  let p3 := p2.setFontIfChanged o.font o.fontSize
  let spacing0 := o.letterSpacing.getD 0
  let spacing :=
    match o.targetWidth, o.pdfWidth with
    | some tw, some pw =>
      if tw ≠ 0 ∧ pw ≠ 0 ∧ 0 < pw ∧ 1 < text.length then
        spacing0 + clamp2 ((tw - pw) / (text.length - 1 : ℚ))
      else spacing0
    | _, _ => spacing0
  let p4 := if spacing ≠ 0 then p3.opSetCharacterSpacing spacing else p3
  let p5 := (p4.opMoveText x y).opShowText text
  let p6 := if spacing ≠ 0 then p5.opSetCharacterSpacing 0 else p5
  p6.opEndText

/-- `drawTextUnicode` (PDFPage.ts). -/
def PDFPage.drawTextUnicode (pg : PDFPage) (text : String) (x y : ℚ) (o : DrawTextOptions) :
    PDFPage :=
  let p1 := pg.opBeginText
  let p2 := match o.color with
    | some c => p1.opSetFillColorRGB c.r c.g c.b
    | none => p1
  let p3 := p2.setFontIfChanged o.font o.fontSize
  ((p3.opMoveText x y).opShowTextHex text).opEndText

/-- `drawTextCID` (PDFPage.ts). -/
def PDFPage.drawTextCID (pg : PDFPage) (hexText : String) (x y : ℚ) (o : DrawTextOptions) :
    PDFPage :=
  let p1 := pg.opBeginText
  let p2 := match o.color with
    | some c => p1.opSetFillColorRGB c.r c.g c.b
    | none => p1
  let p3 := p2.setFontIfChanged o.font o.fontSize
  let spacing := o.letterSpacing.getD 0
  let p4 := if spacing ≠ 0 then p3.opSetCharacterSpacing spacing else p3
  let p5 := (p4.opMoveText x y).opShowTextHexRaw hexText
  let p6 := if spacing ≠ 0 then p5.opSetCharacterSpacing 0 else p5
  p6.opEndText

/-- `drawLine` (PDFPage.ts). -/
def PDFPage.drawLine (pg : PDFPage) (x1 y1 x2 y2 : ℚ) (o : DrawLineOptions) : PDFPage :=
  let p1 := pg.opSaveState
  let p2 := match o.width with
    | some w => p1.opSetLineWidth w
    | none => p1
  let p3 := match o.color with
    | some c => p2.opSetStrokeColorRGB c.r c.g c.b
    | none => p2
  (((p3.opMoveTo x1 y1).opLineTo x2 y2).opStroke).opRestoreState

/-- `drawRect` (PDFPage.ts). -/
def PDFPage.drawRect (pg : PDFPage) (x y w h : ℚ) (o : DrawRectOptions) : PDFPage :=
  let p1 := pg.opSaveState
  let p2 := match o.lineWidth with
    | some lw => p1.opSetLineWidth lw
    | none => p1
  let p3 := p2.opRect x y w h
  let p4 := match o.fill, o.stroke with
    | some fc, some sc =>
      (((p3.opSetFillColorRGB fc.r fc.g fc.b).opSetStrokeColorRGB sc.r sc.g sc.b)).opFillAndStroke
    | some fc, none => (p3.opSetFillColorRGB fc.r fc.g fc.b).opFill
    | none, some sc => (p3.opSetStrokeColorRGB sc.r sc.g sc.b).opStroke
    | none, none => p3
  p4.opRestoreState

/-- `drawImage` (PDFPage.ts). -/
def PDFPage.drawImage (pg : PDFPage) (imageName : String) (x y w h : ℚ) : PDFPage :=
  (((pg.opSaveState).opTransform w 0 0 h x y).opDrawImage imageName).opRestoreState

/-- `setClipRect` (PDFPage.ts). -/
def PDFPage.setClipRect (pg : PDFPage) (x y w h : ℚ) : PDFPage :=
  ((pg.opRect x y w h).opClip).opEndPath

/-- One high-level drawing call, restricted, as the claim is, to the calls
that do not use `saveState`/`restoreState` directly. -/
inductive DrawCall where
  | text (t : String) (x y : ℚ) (o : DrawTextOptions)
  | textUnicode (t : String) (x y : ℚ) (o : DrawTextOptions)
  | textCID (hexText : String) (x y : ℚ) (o : DrawTextOptions)
  | line (x1 y1 x2 y2 : ℚ) (o : DrawLineOptions)
  | rect (x y w h : ℚ) (o : DrawRectOptions)
  | image (name : String) (x y w h : ℚ)
  | clipRect (x y w h : ℚ)

def applyDraw (pg : PDFPage) : DrawCall → PDFPage
  | .text t x y o => pg.drawText t x y o
  | .textUnicode t x y o => pg.drawTextUnicode t x y o
  | .textCID t x y o => pg.drawTextCID t x y o
  | .line x1 y1 x2 y2 o => pg.drawLine x1 y1 x2 y2 o
  | .rect x y w h o => pg.drawRect x y w h o
  | .image n x y w h => pg.drawImage n x y w h
  | .clipRect x y w h => pg.setClipRect x y w h

def applyDraws (pg : PDFPage) (calls : List DrawCall) : PDFPage :=
  calls.foldl applyDraw pg

/-- Nesting balance of save/restore operators: `q` counts +1, `Q` counts -1,
every other operator 0. -/
def qDelta (c : String) : Int :=
  if c = "q" then 1 else if c = "Q" then -1 else 0

def qSum (l : List String) : Int := (l.map qDelta).sum

/-- A correctly nested command list: saves and restores cancel overall, and
no prefix closes more states than it has opened. -/
def qBalanced (l : List String) : Prop :=
  qSum l = 0 ∧ ∀ n : Nat, 0 ≤ qSum (l.take n)

/-- A page transformer that only appends commands of zero save/restore
balance; the draw helpers of `PDFPage` are all of this shape. -/
def AZ (f : PDFPage → PDFPage) : Prop :=
  ∀ pg : PDFPage, ∃ bl : List String,
    (f pg).commands = pg.commands ++ bl ∧ ∀ c ∈ bl, qDelta c = 0

/-! ## Specification-side reference definitions

The following definitions transcribe the wording of the specification (not
the source); the theorems compare them with the source embeddings above. -/

/-- Spec wording for the fractional part of a real: at most five fractional
digits with trailing zeros stripped. -/
def specRealFrac (q : ℚ) : List Char :=
  ((padLeft '0' 5 (natToBase 10 (fixed5N q % 100000))).reverse.dropWhile
    (fun c => c = '0')).reverse

/-- Spec wording for a serialized real: sign, integer digits, then the
fractional digits preceded by a decimal point only when any remain. -/
def specRealForm (q : ℚ) : List Char :=
  (if q < 0 then ['-'] else []) ++ natToBase 10 (fixed5N q / 100000) ++
    (if specRealFrac q = [] then [] else '.' :: specRealFrac q)

/-- Spec wording of the string-escape rule: `(`, `)`, `\` are
backslash-escaped, printable ASCII 32..126 is verbatim, everything else is a
backslash followed by the octal code left-padded with zeros. -/
def specEscapeChar (c : Char) : List Char :=
  if c = '(' ∨ c = ')' ∨ c = '\\' then ['\\', c]
  else if 32 ≤ jsCodeUnit c.toNat ∧ jsCodeUnit c.toNat ≤ 126 then [c]
  else '\\' :: padLeft '0' 3 (natToBase 8 (jsCodeUnit c.toNat))

/-- The twelve standard font names grouped by family and style, used to state
the classification claims. -/
def courierNames : List String :=
  ["Courier", "Courier-Bold", "Courier-Oblique", "Courier-BoldOblique"]

def timesNames : List String :=
  ["Times-Roman", "Times-Bold", "Times-Italic", "Times-BoldItalic"]

def helveticaNames : List String :=
  ["Helvetica", "Helvetica-Bold", "Helvetica-Oblique", "Helvetica-BoldOblique"]

def boldFontNames : List String :=
  ["Courier-Bold", "Courier-BoldOblique", "Times-Bold", "Times-BoldItalic",
   "Helvetica-Bold", "Helvetica-BoldOblique"]

def italicFontNames : List String :=
  ["Courier-Oblique", "Courier-BoldOblique", "Times-Italic", "Times-BoldItalic",
   "Helvetica-Oblique", "Helvetica-BoldOblique"]

/-! ## Concrete instances used by witnesses and counterexamples -/

/-- A font mapping `a` to glyph 1 and `b` to glyph 2. -/
def fontAB : LoadedFontM :=
  { unitsPerEm := 1000,
    charToGlyph := fun cp =>
      if cp = 97 then { index := 1, advanceWidth := some 500 }
      else if cp = 98 then { index := 2, advanceWidth := some 600 }
      else { index := 0, advanceWidth := none } }

/-- A font whose five mapped characters use glyph IDs 5, 6, 7, 10 and 11. -/
def fontRuns : LoadedFontM :=
  { unitsPerEm := 1000,
    charToGlyph := fun cp =>
      if cp = 65 then { index := 5, advanceWidth := some 500 }
      else if cp = 66 then { index := 6, advanceWidth := some 600 }
      else if cp = 67 then { index := 7, advanceWidth := some 700 }
      else if cp = 68 then { index := 10, advanceWidth := some 800 }
      else if cp = 69 then { index := 11, advanceWidth := some 900 }
      else { index := 0, advanceWidth := none } }

/-! # Theorems -/

/-! ## Digit-string helper lemmas -/

theorem natDigitsAux_length_le (b : Nat) :
    ∀ (fuel n k : Nat), n < b ^ k → (natDigitsAux b fuel n).length ≤ k := by
  intro fuel
  induction fuel with
  | zero => intro n k _; simp [natDigitsAux]
  | succ fuel ih =>
    intro n k hk
    by_cases hn : n = 0
    · simp [natDigitsAux, hn]
    · cases k with
      | zero => simp at hk; omega
      | succ k =>
        have hb : 2 ≤ b := by
          by_contra hb
          interval_cases b <;> simp_all
        have hdiv : n / b < b ^ k := by
          rw [Nat.div_lt_iff_lt_mul (by omega)]
          calc n < b ^ (k + 1) := hk
          _ = b ^ k * b := by rw [pow_succ]
        have := ih (n / b) k hdiv
        simp [natDigitsAux, hn]
        omega

theorem natDigitsAux_length_ge (b : Nat) (hb : 2 ≤ b) :
    ∀ (k fuel n : Nat), b ^ k ≤ n → n ≤ fuel → k + 1 ≤ (natDigitsAux b fuel n).length := by
  intro k
  induction k with
  | zero =>
    intro fuel n h1 h2
    have hn : n ≠ 0 := by simp at h1; omega
    cases fuel with
    | zero => omega
    | succ fuel => simp [natDigitsAux, hn]
  | succ k ih =>
    intro fuel n h1 h2
    have hpos : 0 < b ^ (k + 1) := Nat.pos_pow_of_pos _ (by omega)
    have hn : n ≠ 0 := by omega
    cases fuel with
    | zero => omega
    | succ fuel =>
      have hdiv : b ^ k ≤ n / b := by
        rw [Nat.le_div_iff_mul_le (by omega : 0 < b)]
        calc b ^ k * b = b ^ (k + 1) := (pow_succ b k).symm
        _ ≤ n := h1
      have hfuel : n / b ≤ fuel := by
        have : n / b < n := Nat.div_lt_self (by omega) (by omega)
        omega
      have := ih fuel (n / b) hdiv hfuel
      simp [natDigitsAux, hn]
      omega

theorem mem_natDigitsAux (b : Nat) (hb : 0 < b) :
    ∀ (fuel n : Nat) (c : Char), c ∈ natDigitsAux b fuel n → ∃ k, k < b ∧ c = digitCharL k := by
  intro fuel
  induction fuel with
  | zero => intro n c h; simp [natDigitsAux] at h
  | succ fuel ih =>
    intro n c h
    by_cases hn : n = 0
    · simp [natDigitsAux, hn] at h
    · simp [natDigitsAux, hn] at h
      rcases h with h | h
      · exact ih _ _ h
      · exact ⟨n % b, Nat.mod_lt _ hb, h⟩

theorem mem_natToBase (b n : Nat) (hb : 0 < b) (c : Char) (h : c ∈ natToBase b n) :
    ∃ k, k < b ∧ c = digitCharL k := by
  unfold natToBase at h
  by_cases hn : n = 0
  · simp [hn] at h
    exact ⟨0, hb, h⟩
  · simp [hn] at h
    exact mem_natDigitsAux b hb n n c h

theorem natToBase_length_le (b k n : Nat) (hk : 0 < k) (h : n < b ^ k) :
    (natToBase b n).length ≤ k := by
  unfold natToBase
  by_cases hn : n = 0
  · simp [hn]; omega
  · simp [hn]
    exact natDigitsAux_length_le b n n k h

theorem natToBase_length_ge (b k n : Nat) (hb : 2 ≤ b) (h : b ^ k ≤ n) :
    k + 1 ≤ (natToBase b n).length := by
  have hpos : 0 < b ^ k := Nat.pos_pow_of_pos _ (by omega)
  have hn : n ≠ 0 := by omega
  unfold natToBase
  simp [hn]
  exact natDigitsAux_length_ge b hb k n n h le_rfl

/-! ## takeWhile and dropWhile helpers -/

theorem takeWhile_append_stop (p : Char → Bool) (sep : Char) (hsep : p sep = false) :
    ∀ (r t : List Char), (r ++ sep :: t).takeWhile p = r.takeWhile p := by
  intro r t
  induction r with
  | nil => simp [List.takeWhile_cons, hsep]
  | cons a r ih =>
    by_cases ha : p a = true
    · simp [List.takeWhile_cons, ha, ih]
    · simp only [Bool.not_eq_true] at ha
      simp [List.takeWhile_cons, ha]

theorem dropWhile_append_stop (p : Char → Bool) (sep : Char) (hsep : p sep = false) :
    ∀ (r t : List Char), (r ++ sep :: t).dropWhile p = r.dropWhile p ++ sep :: t := by
  intro r t
  induction r with
  | nil => simp [List.dropWhile_cons, hsep]
  | cons a r ih =>
    by_cases ha : p a = true
    · simp [List.dropWhile_cons, ha, ih]
    · simp only [Bool.not_eq_true] at ha
      simp [List.dropWhile_cons, ha]

theorem dropWhile_of_takeWhile_nil (p : Char → Bool) :
    ∀ l : List Char, l.takeWhile p = [] → l.dropWhile p = l := by
  intro l h
  cases l with
  | nil => rfl
  | cons a l =>
    by_cases ha : p a = true
    · simp [List.takeWhile_cons, ha] at h
    · simp only [Bool.not_eq_true] at ha
      simp [List.dropWhile_cons, ha]

theorem head_dropWhile_false (p : Char → Bool) :
    ∀ (l : List Char) (c : Char) (t : List Char), l.dropWhile p = c :: t → p c = false := by
  intro l
  induction l with
  | nil => intro c t h; simp [List.dropWhile] at h
  | cons a l ih =>
    intro c t h
    by_cases ha : p a = true
    · simp [List.dropWhile_cons, ha] at h
      exact ih c t h
    · simp only [Bool.not_eq_true] at ha
      simp [List.dropWhile_cons, ha] at h
      rw [← h.1]
      exact ha

theorem mem_of_mem_dropWhile (p : Char → Bool) :
    ∀ (l : List Char) (c : Char), c ∈ l.dropWhile p → c ∈ l := by
  intro l c h
  exact (List.dropWhile_sublist p).mem h

/-! ## The toFixed/strip normal form -/

theorem padLeft_length_ge (c : Char) (w : Nat) (s : List Char) :
    w ≤ (padLeft c w s).length := by
  simp [padLeft]
  omega

theorem mem_padLeft (c x : Char) (w : Nat) (s : List Char) (h : x ∈ padLeft c w s) :
    x = c ∨ x ∈ s := by
  simp [padLeft] at h
  rcases h with h | h
  · exact Or.inl h.2
  · exact Or.inr h

/-- The fractional block of `toFixed(5)` consists of decimal digits. -/
theorem frac5_digits (q : ℚ) (c : Char)
    (h : c ∈ padLeft '0' 5 (natToBase 10 (fixed5N q % 100000))) :
    ∃ k, k < 10 ∧ c = digitCharL k := by
  rcases mem_padLeft _ _ _ _ h with h | h
  · exact ⟨0, by omega, h⟩
  · exact mem_natToBase 10 _ (by omega) c h

/-- The `replace(/\.?0+$/, '')` strip turns the `toFixed(5)` output into the
spec normal form: fractional digits with trailing zeros removed and the
decimal point dropped when nothing remains. -/
theorem strip_toFixed5 (q : ℚ) :
    stripTrailZeroDot ((JSNumber.val q).toFixed5) = specRealForm q := by
  set sgn : List Char := if q < 0 then ['-'] else [] with hsgn
  set ip : List Char := natToBase 10 (fixed5N q / 100000) with hip
  set f5 : List Char := padLeft '0' 5 (natToBase 10 (fixed5N q % 100000)) with hf5
  have hfix : (JSNumber.val q).toFixed5 = sgn ++ (ip ++ '.' :: f5) := by
    simp [JSNumber.toFixed5, hsgn, hip, hf5]
  have hrev : ((JSNumber.val q).toFixed5).reverse
      = f5.reverse ++ '.' :: (ip.reverse ++ sgn.reverse) := by
    rw [hfix]
    simp [List.reverse_append, List.append_assoc]
  have hdot : (fun c => decide (c = '0')) '.' = false := by decide
  have hform : specRealForm q
      = sgn ++ ip ++ (if specRealFrac q = [] then [] else '.' :: specRealFrac q) := by
    simp [specRealForm, hsgn, hip, List.append_assoc]
  have hfrac : specRealFrac q = (f5.reverse.dropWhile (fun c => decide (c = '0'))).reverse := by
    simp [specRealFrac, hf5]
  simp only [stripTrailZeroDot, hrev]
  rw [takeWhile_append_stop _ _ hdot, dropWhile_append_stop _ _ hdot]
  cases htw : f5.reverse.takeWhile (fun c => decide (c = '0')) with
  | nil =>
    have hdw : f5.reverse.dropWhile (fun c => decide (c = '0')) = f5.reverse :=
      dropWhile_of_takeWhile_nil _ _ htw
    have hfr : specRealFrac q = f5 := by rw [hfrac, hdw, List.reverse_reverse]
    have hne : f5 ≠ [] := by
      have := padLeft_length_ge '0' 5 (natToBase 10 (fixed5N q % 100000))
      rw [← hf5] at this
      intro hcon
      rw [hcon] at this
      simp at this
    simp only [List.isEmpty_nil, if_pos rfl]
    rw [hform, hfix, hfr, if_neg hne]
    simp [List.append_assoc]
  | cons c0 z =>
    simp only [List.isEmpty_cons, if_neg Bool.false_ne_true]
    cases hd : f5.reverse.dropWhile (fun c => decide (c = '0')) with
    | nil =>
      simp only [hd, List.nil_append, List.head?_cons, List.tail_cons, if_pos rfl]
      have hfr : specRealFrac q = [] := by rw [hfrac, hd, List.reverse_nil]
      rw [hform, hfr, if_pos rfl]
      simp [List.reverse_append]
    | cons c d =>
      have hcfalse : decide (c = '0') = false := head_dropWhile_false _ _ _ _ hd
      have hcmem : c ∈ f5 := by
        have h1 : c ∈ f5.reverse.dropWhile (fun c => decide (c = '0')) := by
          rw [hd]; exact List.mem_cons_self c d
        have h2 := mem_of_mem_dropWhile _ _ _ h1
        exact List.mem_reverse.mp h2
      have hcdot : c ≠ '.' := by
        have hdig : ∀ k, k < 10 → digitCharL k ≠ '.' := by decide
        rcases frac5_digits q c (hf5 ▸ hcmem) with ⟨k, hk, rfl⟩
        exact hdig k hk
      have hfr : specRealFrac q = (c :: d).reverse := by rw [hfrac, hd]
      simp only [hd, List.cons_append, List.head?_cons]
      rw [if_neg (show ¬ (some c = some '.') by simp [hcdot]),
        hform, hfr, if_neg (show ¬ ((c :: d).reverse = []) by simp)]
      simp [List.reverse_append, List.append_assoc]

theorem length_dropWhile_le (p : Char → Bool) (l : List Char) :
    (l.dropWhile p).length ≤ l.length :=
  (List.dropWhile_sublist p).length_le

theorem specRealFrac_length (q : ℚ) : (specRealFrac q).length ≤ 5 := by
  have h1 : (natToBase 10 (fixed5N q % 100000)).length ≤ 5 := by
    apply natToBase_length_le 10 5 _ (by omega)
    have : fixed5N q % 100000 < 100000 := Nat.mod_lt _ (by omega)
    calc fixed5N q % 100000 < 100000 := this
    _ = 10 ^ 5 := by norm_num
  have h2 : (padLeft '0' 5 (natToBase 10 (fixed5N q % 100000))).length = 5 := by
    simp [padLeft]
    omega
  unfold specRealFrac
  rw [List.length_reverse]
  calc ((padLeft '0' 5 (natToBase 10 (fixed5N q % 100000))).reverse.dropWhile
          (fun c => decide (c = '0'))).length
      ≤ (padLeft '0' 5 (natToBase 10 (fixed5N q % 100000))).reverse.length :=
        length_dropWhile_le _ _
  _ = 5 := by rw [List.length_reverse]; exact h2

theorem specRealFrac_getLast (q : ℚ) : (specRealFrac q).getLast? ≠ some '0' := by
  unfold specRealFrac
  rw [List.getLast?_reverse]
  cases hd : (padLeft '0' 5 (natToBase 10 (fixed5N q % 100000))).reverse.dropWhile
      (fun c => decide (c = '0')) with
  | nil => simp
  | cons c d =>
    have := head_dropWhile_false _ _ _ _ hd
    simp at this
    simp [this]

/-- C6: PDF numeric serialization emits plain decimal digits for integers
and the stripped `toFixed(5)` normal form otherwise: at most five fractional
digits, no trailing zero among them and no dangling decimal point; the three
spec examples hold. -/
theorem claim_C6_number_formatting :
    (∀ q : ℚ, PDFNumber.serialize (JSNumber.val q) =
        if q.den = 1 then String.mk (intToDec q.num) else String.mk (specRealForm q))
    ∧ (∀ q : ℚ, (specRealFrac q).length ≤ 5 ∧ (specRealFrac q).getLast? ≠ some '0')
    ∧ PDFNumber.serialize (JSNumber.val (101 / 10)) = "10.1"
    ∧ PDFNumber.serialize (JSNumber.val 10) = "10"
    ∧ PDFNumber.serialize (JSNumber.val (-1 / 100000)) = "-0.00001"
    ∧ (PDFNumber.serialize (JSNumber.val (-1 / 100000))).data.getLast? ≠ some '.' := by
  refine ⟨fun q => ?_, fun q => ⟨specRealFrac_length q, specRealFrac_getLast q⟩,
    by with_unfolding_all rfl, by with_unfolding_all rfl, by with_unfolding_all rfl,
    by with_unfolding_all decide⟩
  by_cases h : q.den = 1
  · simp [PDFNumber.serialize, JSNumber.isInteger, JSNumber.jsToString, h]
  · rw [if_neg h]
    have hser : PDFNumber.serialize (JSNumber.val q)
        = String.mk (stripTrailZeroDot ((JSNumber.val q).toFixed5)) := by
      simp [PDFNumber.serialize, JSNumber.isInteger, h]
    rw [hser, strip_toFixed5]

/-- C7 counterexample: the character U+0200 has code 512, outside 32..126,
yet its escape carries four octal digits, not exactly three, so the
three-digit claim is false on the code. -/
theorem claim_C7_counterexample :
    PDFString.serialize "Ȁ" = "(\\1000)"
    ∧ (octal3 512).length = 4
    ∧ (PDFString.serialize "Ȁ").length = 7 := by
  refine ⟨?_, ?_, ?_⟩ <;> decide

/-- C7 (amended): `PDFString.serialize` wraps the escaped text in
parentheses, backslash-escapes exactly `(`, `)` and `\`, emits printable
ASCII 32..126 verbatim and everything else as a backslash plus the octal
code unit zero-padded to at least three digits; the padding gives exactly
three digits precisely for codes below 512. The spec examples hold and a
backslash is doubled. -/
theorem claim_C7_string_escaping :
    (∀ s : String, PDFString.serialize s =
        String.mk ('(' :: (s.data.map specEscapeChar).flatten ++ [')']))
    ∧ (∀ n : Nat, 3 ≤ (octal3 n).length ∧ ((octal3 n).length = 3 ↔ n < 512))
    ∧ PDFString.serialize "(test)" = "(\\(test\\))"
    ∧ PDFString.serialize "\\" = "(\\\\)" := by
  have hesc : ∀ c : Char, pdfEscapeChar c = specEscapeChar c := by
    intro c
    unfold pdfEscapeChar specEscapeChar octal3
    by_cases h1 : c = '(' ∨ c = ')' ∨ c = '\\'
    · rcases h1 with rfl | rfl | rfl <;> rfl
    · have hb : (c = '(' || c = ')' || c = '\\') = false := by
        push_neg at h1
        simp [h1.1, h1.2.1, h1.2.2]
      rw [if_neg (by simp [hb]), if_neg h1]
      by_cases h2 : 32 ≤ jsCodeUnit c.toNat ∧ jsCodeUnit c.toNat ≤ 126
      · have hb2 : (jsCodeUnit c.toNat < 32 || 126 < jsCodeUnit c.toNat) = false := by
          simp; omega
        rw [if_neg (by simp [hb2]), if_pos h2]
      · have hb2 : (jsCodeUnit c.toNat < 32 || 126 < jsCodeUnit c.toNat) = true := by
          simp; omega
        rw [if_pos (by simp [hb2]), if_neg h2]
  refine ⟨fun s => ?_, fun n => ?_, by decide, by decide⟩
  · have hfun : pdfEscapeChar = specEscapeChar := funext hesc
    rw [PDFString.serialize, hfun]
  · constructor
    · have := padLeft_length_ge '0' 3 (natToBase 8 n)
      simpa [octal3] using this
    · constructor
      · intro h3
        by_contra hge
        push_neg at hge
        have h4 : 4 ≤ (natToBase 8 n).length := by
          have := natToBase_length_ge 8 3 n (by omega) (by norm_num; omega)
          omega
        have : (octal3 n).length = (natToBase 8 n).length := by
          simp [octal3, padLeft]
          omega
        omega
      · intro hlt
        have hle : (natToBase 8 n).length ≤ 3 := by
          apply natToBase_length_le 8 3 n (by omega)
          calc n < 512 := hlt
          _ = 8 ^ 3 := by norm_num
        simp [octal3, padLeft]
        omega

/-- C5: converting px to pt and back, and mm to pt and back, recovers the
input exactly (hence within the 1e-9 relative tolerance); the converters are
plain multiplications by 72/96, 96/72, 72/25.4 and 25.4/72. -/
theorem claim_C5_unit_roundtrip :
    ∀ x : ℚ,
      UnitConverter.ptToPx (UnitConverter.pxToPt x) = x
      ∧ UnitConverter.mmToPt (UnitConverter.ptToMm x) = x
      ∧ |UnitConverter.ptToPx (UnitConverter.pxToPt x) - x| ≤ 1 / 1000000000 * |x|
      ∧ |UnitConverter.mmToPt (UnitConverter.ptToMm x) - x| ≤ 1 / 1000000000 * |x| := by
  intro x
  have h1 : UnitConverter.ptToPx (UnitConverter.pxToPt x) = x := by
    unfold UnitConverter.ptToPx UnitConverter.pxToPt; ring
  have h2 : UnitConverter.mmToPt (UnitConverter.ptToMm x) = x := by
    unfold UnitConverter.mmToPt UnitConverter.ptToMm; ring
  refine ⟨h1, h2, ?_, ?_⟩
  · rw [h1, sub_self, abs_zero]; positivity
  · rw [h2, sub_self, abs_zero]; positivity

/-- C1 counterexample: serializing NaN does not throw and returns the very
byte sequence `NaN` (and similarly `Infinity`), so the fail-fast claim is
false on the code. -/
theorem claim_C1_counterexample :
    PDFNumber.serialize JSNumber.nan = "NaN"
    ∧ formatNumber JSNumber.inf = "Infinity" := by
  constructor <;> decide

/-- C1 (amended): non-finite values are not detected; both serializers fall
through the integer check and return the strings `NaN`, `Infinity` and
`-Infinity` produced by `toFixed`, and `formatNumber` is the same function
as `PDFNumber.serialize`. -/
theorem claim_C1_nonfinite_serialization :
    (∀ x : JSNumber, formatNumber x = PDFNumber.serialize x)
    ∧ PDFNumber.serialize JSNumber.nan = "NaN"
    ∧ PDFNumber.serialize JSNumber.inf = "Infinity"
    ∧ PDFNumber.serialize JSNumber.negInf = "-Infinity" := by
  refine ⟨fun x => rfl, ?_, ?_, ?_⟩ <;> decide

/-- C8: `measureTextWidth` is the sum of the per-character table widths of
the chosen family, with the family default (556 sans, 500 serif, 600 mono)
for codes absent from the table, scaled by `fontSize/1000`; in particular a
capital A in sans-serif at size 1000 measures exactly 667. -/
theorem claim_C8_measure_text_width :
    (∀ (text : List Nat) (fontSize : ℚ) (ft : FontType),
      measureTextWidth text fontSize ft =
        (text.map (fun cp => (getFontWidths ft (jsCodeUnit cp)).getD (defaultWidthOf ft))).sum
          * fontSize / 1000)
    ∧ defaultWidthOf FontType.sansSerif = 556
    ∧ defaultWidthOf FontType.serif = 500
    ∧ defaultWidthOf FontType.monospace = 600
    ∧ measureTextWidth [65] 1000 FontType.sansSerif = 667 := by
  refine ⟨fun text fontSize ft => ?_, rfl, rfl, rfl, by
    show (((some (667 : ℚ)).getD 556 + 0) / 1000) * 1000 = 667
    norm_num⟩
  unfold measureTextWidth
  ring

/-! ## Standard font mapper -/

theorem isMonospaceFamily_iff (fam : String) :
    isMonospaceFamily fam = true ↔
      (strIncl fam "monospace" = true ∨ strIncl fam "courier" = true ∨
       strIncl fam "consolas" = true ∨ strIncl fam "monaco" = true ∨
       strIncl fam "menlo" = true ∨ strIncl fam "source code" = true ∨
       strIncl fam "fira code" = true ∨ strIncl fam "jetbrains" = true) := by
  simp [isMonospaceFamily, or_assoc]

theorem isSerifFamily_iff (fam : String) :
    isSerifFamily fam = true ↔
      (strIncl fam "sans-serif" = false ∧
        (strIncl fam "serif" = true ∨ strIncl fam "times" = true ∨
         strIncl fam "georgia" = true ∨ strIncl fam "palatino" = true ∨
         strIncl fam "cambria" = true ∨ strIncl fam "book" = true)) := by
  simp [isSerifFamily, or_assoc]

theorem isBoldWeight_iff (w : WeightV) :
    isBoldWeight w = true ↔ (w = WeightV.str "bold" ∨ jsGe700 (weightToNumber w) = true) := by
  cases w with
  | num q => simp [isBoldWeight]
  | str s => simp [isBoldWeight]

theorem isItalicStyle_iff (s : String) :
    isItalicStyle s = true ↔ (s = "italic" ∨ s = "oblique") := by
  simp [isItalicStyle]

/-- C4: the standard-font mapper classifies by keyword sets on the
lower-cased family (monospace keywords first, then serif keywords guarded
against `sans-serif`, else Helvetica), with bold from the `bold` token or a
numeric weight of at least 700 and italic from `italic`/`oblique`; the three
spec examples hold and `Arial, sans-serif` never maps to a Times font. -/
theorem claim_C4_standard_font_mapping :
    (∀ (fam : String) (w : WeightV) (style : String),
      (mapCSSFontToStandard fam w style ∈ courierNames ↔
        isMonospaceFamily (strLower fam) = true)
      ∧ (mapCSSFontToStandard fam w style ∈ timesNames ↔
          (isMonospaceFamily (strLower fam) = false ∧ isSerifFamily (strLower fam) = true))
      ∧ (mapCSSFontToStandard fam w style ∈ helveticaNames ↔
          (isMonospaceFamily (strLower fam) = false ∧ isSerifFamily (strLower fam) = false))
      ∧ (mapCSSFontToStandard fam w style ∈ boldFontNames ↔ isBoldWeight w = true)
      ∧ (mapCSSFontToStandard fam w style ∈ italicFontNames ↔ isItalicStyle style = true))
    ∧ (∀ fam : String, isMonospaceFamily fam = true ↔
        (strIncl fam "monospace" = true ∨ strIncl fam "courier" = true ∨
         strIncl fam "consolas" = true ∨ strIncl fam "monaco" = true ∨
         strIncl fam "menlo" = true ∨ strIncl fam "source code" = true ∨
         strIncl fam "fira code" = true ∨ strIncl fam "jetbrains" = true))
    ∧ (∀ fam : String, isSerifFamily fam = true ↔
        (strIncl fam "sans-serif" = false ∧
          (strIncl fam "serif" = true ∨ strIncl fam "times" = true ∨
           strIncl fam "georgia" = true ∨ strIncl fam "palatino" = true ∨
           strIncl fam "cambria" = true ∨ strIncl fam "book" = true)))
    ∧ (∀ w : WeightV, isBoldWeight w = true ↔
        (w = WeightV.str "bold" ∨ jsGe700 (weightToNumber w) = true))
    ∧ (∀ s : String, isItalicStyle s = true ↔ (s = "italic" ∨ s = "oblique"))
    ∧ mapCSSFontToStandard "Georgia, serif" (.num 700) "italic" = "Times-BoldItalic"
    ∧ mapCSSFontToStandard "monospace" (.num 400) "normal" = "Courier"
    ∧ mapCSSFontToStandard "Arial, sans-serif" (.num 400) "normal" = "Helvetica"
    ∧ mapCSSFontToStandard "Arial, sans-serif" (.num 400) "normal" ∉ timesNames := by
  refine ⟨fun fam w style => ?_, isMonospaceFamily_iff, isSerifFamily_iff, isBoldWeight_iff,
    isItalicStyle_iff, by with_unfolding_all decide, by with_unfolding_all decide,
    by with_unfolding_all decide, by with_unfolding_all decide⟩
  cases hm : isMonospaceFamily (strLower fam) <;>
    cases hs : isSerifFamily (strLower fam) <;>
      cases hb : isBoldWeight w <;>
        cases hi : isItalicStyle style <;>
          simp [mapCSSFontToStandard, hm, hs, hb, hi, courierNames, timesNames,
            helveticaNames, boldFontNames, italicFontNames]

/-! ## ToUnicode CMap -/

theorem chunkAux_flatten {α : Type} :
    ∀ (fuel : Nat) (l : List α), l.length ≤ fuel → (chunkAux fuel l).flatten = l := by
  intro fuel
  induction fuel with
  | zero =>
    intro l h
    cases l with
    | nil => rfl
    | cons a t => simp at h
  | succ fuel ih =>
    intro l h
    cases l with
    | nil => rfl
    | cons a t =>
      show ((a :: t).take 100 :: chunkAux fuel ((a :: t).drop 100)).flatten = a :: t
      rw [List.flatten_cons, ih _ (by rw [List.length_drop]; simp at h ⊢; omega),
        List.take_append_drop]

theorem chunk100_flatten {α : Type} (l : List α) : (chunk100 l).flatten = l :=
  chunkAux_flatten _ _ le_rfl

theorem mem_buildToUnicodeCMap (mappings : List (Nat × Nat)) (g u : Nat)
    (h : (g, u) ∈ sortByFst mappings) :
    bfcharLine g u ∈ buildToUnicodeCMap mappings := by
  unfold buildToUnicodeCMap
  have h2 : (g, u) ∈ (chunk100 (sortByFst mappings)).flatten := by
    rw [chunk100_flatten]; exact h
  rcases List.mem_flatten.mp h2 with ⟨c, hc, hgc⟩
  apply List.mem_append.mpr; left
  apply List.mem_append.mpr; right
  apply List.mem_flatten.mpr
  refine ⟨_, List.mem_map_of_mem _ hc, ?_⟩
  apply List.mem_cons_of_mem
  apply List.mem_append.mpr; left
  exact List.mem_map_of_mem _ hgc

theorem mem_sortByFst {β : Type} (l : List (Nat × β)) (e : Nat × β) :
    e ∈ sortByFst l ↔ e ∈ l :=
  (List.perm_insertionSort _ _).mem_iff

theorem mem_cmapMappingsRaw (f : LoadedFontM) (used : List Nat) (g u : Nat) :
    (g, u) ∈ cmapMappingsRaw f used ↔
      ∃ cp ∈ used, 0 < (f.charToGlyph cp).index ∧ (f.charToGlyph cp).index = g ∧ cp = u := by
  unfold cmapMappingsRaw
  rw [List.mem_filterMap]
  constructor
  · rintro ⟨cp, hcp, hf⟩
    by_cases hpos : 0 < (f.charToGlyph cp).index
    · simp [hpos] at hf
      exact ⟨cp, hcp, hpos, hf.1, hf.2⟩
    · simp [hpos] at hf
  · rintro ⟨cp, hcp, hpos, rfl, rfl⟩
    exact ⟨cp, hcp, by simp [hpos]⟩

/-- C2 (amended): for any font and any list of used code points — mixed
coverage allowed — (1) every used code point whose glyph index is nonzero
has its `bfchar` line in the generated ToUnicode CMap, regardless of what
the rest of the sample maps to; (2) if moreover no other used code point
shares that code point's glyph index, looking the glyph ID up among the
CMap entries yields back exactly that code point; (3) `textToCIDHex` emits
precisely the 4-hex-digit glyph ID the CMap is keyed by for every
character; (4) a code point whose glyph index is 0 is skipped — no CMap
entry carries it — (5) although `textToCIDHex` still emits `0000` for it. -/
theorem claim_C2_tounicode_roundtrip :
    (∀ (f : LoadedFontM) (used : List Nat), ∀ cp ∈ used,
      (f.charToGlyph cp).index ≠ 0 →
      bfcharLine (f.charToGlyph cp).index cp ∈ toUnicodeCMapLines f used)
    ∧ (∀ (f : LoadedFontM) (used : List Nat), ∀ cp ∈ used,
      (f.charToGlyph cp).index ≠ 0 →
      (∀ cp' ∈ used, (f.charToGlyph cp').index = (f.charToGlyph cp).index → cp' = cp) →
      ∀ u : Nat, u ∈ cmapLookup (cmapMappings f used) (f.charToGlyph cp).index ↔ u = cp)
    ∧ (∀ (f : LoadedFontM) (cp : Nat),
      textToCIDHex f [cp] = String.mk (hex4U (f.charToGlyph cp).index))
    ∧ (∀ (f : LoadedFontM) (used : List Nat) (cp : Nat),
      (f.charToGlyph cp).index = 0 → ∀ g : Nat, (g, cp) ∉ cmapMappings f used)
    ∧ (∀ (f : LoadedFontM) (cp : Nat),
      (f.charToGlyph cp).index = 0 → textToCIDHex f [cp] = "0000") := by
  refine ⟨?_, ?_, ?_, ?_, ?_⟩
  · intro f used cp hcp h0
    apply mem_buildToUnicodeCMap
    rw [mem_sortByFst, mem_cmapMappingsRaw]
    exact ⟨cp, hcp, Nat.pos_of_ne_zero h0, rfl, rfl⟩
  · intro f used cp hcp h0 hinj u
    have hmem : ((f.charToGlyph cp).index, cp) ∈ sortByFst (cmapMappingsRaw f used) := by
      rw [mem_sortByFst, mem_cmapMappingsRaw]
      exact ⟨cp, hcp, Nat.pos_of_ne_zero h0, rfl, rfl⟩
    unfold cmapLookup cmapMappings
    rw [List.mem_filterMap]
    constructor
    · rintro ⟨e, he, hef⟩
      by_cases heq : e.1 = (f.charToGlyph cp).index
      · simp [heq] at hef
        rw [mem_sortByFst] at he
        have he2 : (e.1, e.2) ∈ cmapMappingsRaw f used := by simpa using he
        rw [mem_cmapMappingsRaw] at he2
        rcases he2 with ⟨cp', hcp', _, hg, hu⟩
        have hcc : cp' = cp := hinj cp' hcp' (by rw [hg, heq])
        rw [← hef, ← hu, hcc]
      · simp [heq] at hef
    · rintro hu
      refine ⟨((f.charToGlyph cp).index, cp), hmem, ?_⟩
      simp [hu]
  · intro f cp
    simp [textToCIDHex]
  · intro f used cp h0 g hmem
    rw [cmapMappings, mem_sortByFst, mem_cmapMappingsRaw] at hmem
    rcases hmem with ⟨cp', hcp', hpos, hg, hu⟩
    rw [hu, h0] at hpos
    exact Nat.lt_irrefl 0 hpos
  · intro f cp h0
    have h1 : textToCIDHex f [cp] = String.mk (hex4U (f.charToGlyph cp).index) := by
      simp [textToCIDHex]
    rw [h1, h0]
    decide

/-- C2 witness: a mixed sample `ax` over a two-glyph font, where `a` maps
to glyph 1 but `x` degrades to glyph 0; the per-code-point hypotheses hold
for `a`, its bfchar line is in the CMap and its glyph-ID lookup round-trips,
while `x` has no CMap entry yet still encodes as `0000`. -/
theorem claim_C2_witness :
    (97 ∈ [97, 120]
      ∧ (fontAB.charToGlyph 97).index ≠ 0
      ∧ (∀ cp' ∈ [97, 120],
          (fontAB.charToGlyph cp').index = (fontAB.charToGlyph 97).index → cp' = 97)
      ∧ (fontAB.charToGlyph 120).index = 0)
    ∧ bfcharLine (fontAB.charToGlyph 97).index 97 ∈ toUnicodeCMapLines fontAB [97, 120]
    ∧ (97 ∈ cmapLookup (cmapMappings fontAB [97, 120]) (fontAB.charToGlyph 97).index ↔ 97 = 97)
    ∧ textToCIDHex fontAB [97] = String.mk (hex4U (fontAB.charToGlyph 97).index)
    ∧ (1, 120) ∉ cmapMappings fontAB [97, 120]
    ∧ textToCIDHex fontAB [120] = "0000" :=
  ⟨⟨by decide, by decide, by decide, rfl⟩,
    claim_C2_tounicode_roundtrip.1 fontAB [97, 120] 97 (by decide) (by decide),
    claim_C2_tounicode_roundtrip.2.1 fontAB [97, 120] 97 (by decide) (by decide) (by decide) 97,
    claim_C2_tounicode_roundtrip.2.2.1 fontAB 97,
    claim_C2_tounicode_roundtrip.2.2.2.1 fontAB [97, 120] 120 rfl 1,
    claim_C2_tounicode_roundtrip.2.2.2.2 fontAB 120 rfl⟩

/-- C2 counterexample: on the mixed sample `ax`, the code point of `x`
degrades to glyph 0, gets no `bfchar` entry even though it is in the
sample, its glyph ID is absent from the CMap entries, and yet
`textToCIDHex` still emits `0000` for it — so the unamended claim fails. -/
theorem claim_C2_counterexample :
    120 ∈ [97, 120]
    ∧ (fontAB.charToGlyph 120).index = 0
    ∧ bfcharLine (fontAB.charToGlyph 120).index 120 ∉ toUnicodeCMapLines fontAB [97, 120]
    ∧ cmapLookup (cmapMappings fontAB [97, 120]) (fontAB.charToGlyph 120).index = []
    ∧ textToCIDHex fontAB [120] = "0000" := by
  refine ⟨by decide, rfl, by decide, by decide, by decide⟩

/-! ## Width-array grouping -/

theorem takeRun_rem_le (l : List (Nat × Int)) : ∀ p : Nat, (takeRun p l).2.length ≤ l.length := by
  induction l with
  | nil => intro p; simp [takeRun]
  | cons e rest ih =>
    intro p
    by_cases he : e.1 = p + 1
    · simp only [takeRun]
      rw [if_pos he]
      show (takeRun e.1 rest).2.length ≤ (e :: rest).length
      calc (takeRun e.1 rest).2.length ≤ rest.length := ih e.1
      _ ≤ (e :: rest).length := by simp
    · simp [takeRun, he]

theorem takeRun_expand (l : List (Nat × Int)) :
    ∀ p : Nat, expandFrom (p + 1) (takeRun p l).1 ++ (takeRun p l).2 = l := by
  induction l with
  | nil => intro p; rfl
  | cons e rest ih =>
    intro p
    by_cases he : e.1 = p + 1
    · simp only [takeRun]
      rw [if_pos he]
      show expandFrom (p + 1) (e.2 :: (takeRun e.1 rest).1) ++ (takeRun e.1 rest).2 = e :: rest
      simp only [expandFrom, List.cons_append]
      rw [show p + 1 + 1 = e.1 + 1 by omega, ih e.1, ← he]
    · simp [takeRun, he, expandFrom]

theorem takeRun_rem_head (l : List (Nat × Int)) :
    ∀ (p : Nat) (h : Nat × Int) (t : List (Nat × Int)),
      (takeRun p l).2 = h :: t → h.1 ≠ p + (takeRun p l).1.length + 1 := by
  induction l with
  | nil => intro p h t hc; simp [takeRun] at hc
  | cons e rest ih =>
    intro p h t hc
    by_cases he : e.1 = p + 1
    · simp only [takeRun] at hc ⊢
      rw [if_pos he] at hc ⊢
      have hc' : (takeRun e.1 rest).2 = h :: t := hc
      have hne := ih e.1 h t hc'
      show h.1 ≠ p + (e.2 :: (takeRun e.1 rest).1).length + 1
      simp only [List.length_cons]
      omega
    · simp only [takeRun] at hc ⊢
      rw [if_neg he] at hc ⊢
      have hc' : e :: rest = h :: t := hc
      injection hc' with h1 h2
      show h.1 ≠ p + ([] : List Int).length + 1
      rw [← h1]
      simpa using he

theorem groupAux_nil : ∀ fuel : Nat, groupAux fuel [] = [] := by
  intro fuel; cases fuel <;> rfl

theorem groupAux_flatten :
    ∀ (fuel : Nat) (l : List (Nat × Int)), l.length ≤ fuel →
      ((groupAux fuel l).map expandGroup).flatten = l := by
  intro fuel
  induction fuel with
  | zero =>
    intro l h
    cases l with
    | nil => rfl
    | cons e rest => simp at h
  | succ fuel ih =>
    intro l h
    cases l with
    | nil => rfl
    | cons e rest =>
      show (expandGroup (e.1, e.2 :: (takeRun e.1 rest).1) ::
        (groupAux fuel (takeRun e.1 rest).2).map expandGroup).flatten = e :: rest
      rw [List.flatten_cons]
      have hlen : (takeRun e.1 rest).2.length ≤ fuel := by
        have h1 := takeRun_rem_le rest e.1
        simp at h
        omega
      rw [ih _ hlen]
      show (e.1, e.2) :: (expandFrom (e.1 + 1) (takeRun e.1 rest).1 ++ (takeRun e.1 rest).2)
        = e :: rest
      rw [takeRun_expand rest e.1]

theorem groupAux_chain :
    ∀ (fuel : Nat) (l : List (Nat × Int)), l.length ≤ fuel →
      List.Chain' (fun g g' => g'.1 ≠ g.1 + g.2.length) (groupAux fuel l) := by
  intro fuel
  induction fuel with
  | zero =>
    intro l h
    cases l with
    | nil => exact List.chain'_nil
    | cons e rest => simp at h
  | succ fuel ih =>
    intro l h
    cases l with
    | nil => exact List.chain'_nil
    | cons e rest =>
      show List.Chain' _ ((e.1, e.2 :: (takeRun e.1 rest).1) :: groupAux fuel (takeRun e.1 rest).2)
      have hlen : (takeRun e.1 rest).2.length ≤ fuel := by
        have h1 := takeRun_rem_le rest e.1
        simp at h
        omega
      apply List.Chain'.cons'
      · exact ih _ hlen
      · intro y hy
        cases hrem : (takeRun e.1 rest).2 with
        | nil => rw [hrem, groupAux_nil] at hy; simp at hy
        | cons hh tt =>
          cases fuel with
          | zero => rw [hrem] at hlen; simp at hlen
          | succ fuel =>
            rw [hrem] at hy
            show y.1 ≠ e.1 + (e.2 :: (takeRun e.1 rest).1).length
            have hy1 : y.1 = hh.1 := by
              simp only [groupAux, List.head?_cons, Option.mem_def, Option.some.injEq] at hy
              rw [← hy]
            have hb := takeRun_rem_head rest e.1 hh tt hrem
            rw [hy1]
            simp only [List.length_cons]
            omega

theorem groupAux_ne_nil :
    ∀ (fuel : Nat) (l : List (Nat × Int)) (g : Nat × List Int),
      g ∈ groupAux fuel l → g.2 ≠ [] := by
  intro fuel
  induction fuel with
  | zero => intro l g h; simp [groupAux] at h
  | succ fuel ih =>
    intro l g h
    cases l with
    | nil => simp [groupAux] at h
    | cons e rest =>
      simp only [groupAux] at h
      rcases List.mem_cons.mp h with h1 | h1
      · rw [h1]; simp
      · exact ih _ _ h1

set_option maxRecDepth 4000 in
/-- C3: the width-array builder collects one `(glyphID, round(advance *
scale))` entry per used code point with a positive glyph index, sorts them
by glyph ID, and groups maximal runs of strictly consecutive glyph IDs:
expanding the groups recovers the sorted entries, adjacent groups are never
contiguous, no group is empty, and the emitted `W` array alternates a start
glyph ID with the width list of its run. For used glyph IDs {5,6,7,10,11}
exactly the two groups `5 [w5 w6 w7]` and `10 [w10 w11]` are emitted. -/
theorem claim_C3_width_array_grouping :
    (∀ (f : LoadedFontM) (used : List Nat) (scale : ℚ),
      ((groupConsecutiveGlyphs (collectWidths f used scale)).map expandGroup).flatten
          = collectWidths f used scale
      ∧ List.Sorted (fun a b => a.1 ≤ b.1) (collectWidths f used scale)
      ∧ (collectWidths f used scale).Perm
          (used.filterMap (fun cp =>
            let g := f.charToGlyph cp
            if 0 < g.index then some (g.index, jsRound ((g.advanceWidth.getD 0) * scale))
            else none))
      ∧ List.Chain' (fun g g' => g'.1 ≠ g.1 + g.2.length)
          (groupConsecutiveGlyphs (collectWidths f used scale))
      ∧ (∀ g ∈ groupConsecutiveGlyphs (collectWidths f used scale), g.2 ≠ [])
      ∧ buildWidthArray f used scale
          = ((groupConsecutiveGlyphs (collectWidths f used scale)).map
              (fun g => [WElem.gid g.1, WElem.ws g.2])).flatten)
    ∧ groupConsecutiveGlyphs (collectWidths fontRuns [65, 66, 67, 68, 69]
        (1000 / fontRuns.unitsPerEm))
        = [(5, [500, 600, 700]), (10, [800, 900])]
    ∧ buildWidthArray fontRuns [65, 66, 67, 68, 69] (1000 / fontRuns.unitsPerEm)
        = [WElem.gid 5, WElem.ws [500, 600, 700], WElem.gid 10, WElem.ws [800, 900]] := by
  refine ⟨fun f used scale => ⟨groupAux_flatten _ _ le_rfl,
    List.sorted_insertionSort _ _, List.perm_insertionSort _ _,
    groupAux_chain _ _ le_rfl, groupAux_ne_nil _ _, rfl⟩,
    by with_unfolding_all decide, by with_unfolding_all decide⟩

/-- C3 witness: the first emitted group of the concrete {5,6,7,10,11} run
instance is in the grouping and is nonempty. -/
theorem claim_C3_witness :
    ((5, ([500, 600, 700] : List Int)) ∈
        groupConsecutiveGlyphs (collectWidths fontRuns [65, 66, 67, 68, 69]
          (1000 / fontRuns.unitsPerEm)))
    ∧ ((5, ([500, 600, 700] : List Int)).2 ≠ []) :=
  ⟨by with_unfolding_all decide,
    (claim_C3_width_array_grouping.1 fontRuns [65, 66, 67, 68, 69]
      (1000 / fontRuns.unitsPerEm)).2.2.2.2.1 (5, [500, 600, 700])
      (by with_unfolding_all decide)⟩

/-! ## Content-stream nesting -/

theorem strData_append (a b : String) : (a ++ b).data = a.data ++ b.data := rfl

theorem qDelta_of_space (s : String) (h : ' ' ∈ s.data) : qDelta s = 0 := by
  have h1 : s ≠ "q" := by rintro rfl; revert h; decide
  have h2 : s ≠ "Q" := by rintro rfl; revert h; decide
  simp [qDelta, h1, h2]

theorem qDelta_append_space (a b : String) (h : ' ' ∈ b.data) : qDelta (a ++ b) = 0 :=
  qDelta_of_space _ (by rw [strData_append]; exact List.mem_append_right _ h)

theorem qSum_append (a b : List String) : qSum (a ++ b) = qSum a + qSum b := by
  simp [qSum]

theorem qSum_of_zero (l : List String) (h : ∀ c ∈ l, qDelta c = 0) : qSum l = 0 := by
  apply List.sum_eq_zero
  rintro x hx
  rcases List.mem_map.mp hx with ⟨c, hc, rfl⟩
  exact h c hc

theorem qSum_take_zero (l : List String) (h : ∀ c ∈ l, qDelta c = 0) (n : Nat) :
    qSum (l.take n) = 0 :=
  qSum_of_zero _ (fun c hc => h c (List.take_subset n l hc))

theorem qBalanced_of_zero (l : List String) (h : ∀ c ∈ l, qDelta c = 0) : qBalanced l :=
  ⟨qSum_of_zero l h, fun n => by rw [qSum_take_zero l h n]⟩

theorem qBalanced_append {a b : List String} (ha : qBalanced a) (hb : qBalanced b) :
    qBalanced (a ++ b) := by
  refine ⟨by rw [qSum_append, ha.1, hb.1]; ring, fun n => ?_⟩
  rw [List.take_append_eq_append_take, qSum_append]
  have h1 := ha.2 n
  have h2 := hb.2 (n - a.length)
  omega

theorem qBalanced_wrap (mid : List String) (h : ∀ c ∈ mid, qDelta c = 0) :
    qBalanced ("q" :: mid ++ ["Q"]) := by
  have hq : qDelta "q" = 1 := by decide
  have hQ : qDelta "Q" = -1 := by decide
  have hmid : qSum mid = 0 := qSum_of_zero mid h
  constructor
  · show qSum ("q" :: (mid ++ ["Q"])) = 0
    simp only [qSum, List.map_cons, List.sum_cons, List.map_append, List.sum_append,
      List.map_nil, List.sum_nil]
    rw [hq, hQ]
    have : (mid.map qDelta).sum = qSum mid := rfl
    rw [this, hmid]
    ring
  · intro n
    cases n with
    | zero => simp [qSum]
    | succ n =>
      show 0 ≤ qSum (("q" :: (mid ++ ["Q"])).take (n + 1))
      rw [List.take_succ_cons]
      have hstep : qSum ("q" :: (mid ++ ["Q"]).take n)
          = 1 + qSum ((mid ++ ["Q"]).take n) := by
        simp only [qSum, List.map_cons, List.sum_cons]
        rw [hq]
      rw [hstep]
      have hb2 : -1 ≤ qSum ((mid ++ ["Q"]).take n) := by
        rw [List.take_append_eq_append_take, qSum_append]
        have hz : qSum (mid.take n) = 0 := qSum_take_zero mid h n
        have hsing : -1 ≤ qSum (["Q"].take (n - mid.length)) := by
          cases hk : n - mid.length with
          | zero => simp [qSum]
          | succ m =>
            have : (["Q"] : List String).take (m + 1) = ["Q"] := by simp
            rw [this]
            show -1 ≤ qSum ["Q"]
            simp [qSum, hQ]
        omega
      omega

theorem az_comp {f g : PDFPage → PDFPage} (hf : AZ f) (hg : AZ g) :
    AZ (fun pg => g (f pg)) := by
  intro pg
  obtain ⟨b1, e1, z1⟩ := hf pg
  obtain ⟨b2, e2, z2⟩ := hg (f pg)
  refine ⟨b1 ++ b2, by rw [e2, e1, List.append_assoc], ?_⟩
  intro c hc
  rcases List.mem_append.mp hc with hm | hm
  exacts [z1 c hm, z2 c hm]

theorem az_push {c : String} (hc : qDelta c = 0) : AZ (fun pg => pg.push c) :=
  fun pg => ⟨[c], rfl, by simpa⟩

theorem az_id : AZ (fun pg : PDFPage => pg) :=
  fun pg => ⟨[], by simp, by simp⟩

theorem az_setFontIfChanged (font : String) (size : ℚ) :
    AZ (fun pg => pg.setFontIfChanged font size) := by
  intro pg
  by_cases h : pg.currentFont ≠ some font ∨ pg.currentFontSize ≠ size
  · refine ⟨["/" ++ font ++ " " ++ fmtQ size ++ " Tf"], ?_, ?_⟩
    · simp [PDFPage.setFontIfChanged, h, PDFPage.opSetFont, PDFPage.push]
    · intro c hc
      simp at hc
      rw [hc]
      exact qDelta_append_space _ " Tf" (by decide)
  · refine ⟨[], ?_, by simp⟩
    simp [PDFPage.setFontIfChanged, h]

theorem az_colorStep (copt : Option RGBColor) :
    AZ (fun pg : PDFPage =>
      match copt with
      | some c => pg.opSetFillColorRGB c.r c.g c.b
      | none => pg) := by
  cases copt with
  | none => exact az_id
  | some col => exact az_push (qDelta_append_space _ " rg" (by decide))

theorem az_spacingStep (cond s : ℚ) :
    AZ (fun pg : PDFPage => if cond ≠ 0 then pg.opSetCharacterSpacing s else pg) := by
  intro pg
  by_cases hs : cond ≠ 0
  · refine ⟨[fmtQ s ++ " Tc"], by simp [hs, PDFPage.opSetCharacterSpacing, PDFPage.push], ?_⟩
    intro c hc
    simp at hc
    rw [hc]
    exact qDelta_append_space _ " Tc" (by decide)
  · simp only [if_neg hs]
    exact ⟨[], by simp, by simp⟩

theorem az_drawText (t : String) (x y : ℚ) (o : DrawTextOptions) :
    AZ (fun pg => pg.drawText t x y o) := by
  unfold PDFPage.drawText
  exact az_comp (az_comp (az_comp (az_comp (az_comp
    (az_comp (az_push (by decide)) (az_colorStep o.color))
    (az_setFontIfChanged o.font o.fontSize))
    (az_spacingStep _ _))
    (az_comp (az_push (qDelta_append_space _ " Td" (by decide)))
      (az_push (qDelta_append_space _ ") Tj" (by decide)))))
    (az_spacingStep _ _))
    (az_push (by decide))

theorem az_drawTextUnicode (t : String) (x y : ℚ) (o : DrawTextOptions) :
    AZ (fun pg => pg.drawTextUnicode t x y o) := by
  unfold PDFPage.drawTextUnicode
  exact az_comp (az_comp (az_comp (az_comp
    (az_comp (az_push (by decide)) (az_colorStep o.color))
    (az_setFontIfChanged o.font o.fontSize))
    (az_push (qDelta_append_space _ " Td" (by decide))))
    (az_push (qDelta_append_space _ "> Tj" (by decide))))
    (az_push (by decide))

theorem az_drawTextCID (t : String) (x y : ℚ) (o : DrawTextOptions) :
    AZ (fun pg => pg.drawTextCID t x y o) := by
  unfold PDFPage.drawTextCID
  exact az_comp (az_comp (az_comp (az_comp (az_comp
    (az_comp (az_push (by decide)) (az_colorStep o.color))
    (az_setFontIfChanged o.font o.fontSize))
    (az_spacingStep _ _))
    (az_comp (az_push (qDelta_append_space _ " Td" (by decide)))
      (az_push (qDelta_append_space _ "> Tj" (by decide)))))
    (az_spacingStep _ _))
    (az_push (by decide))

theorem az_setClipRect (x y w h : ℚ) :
    AZ (fun pg => pg.setClipRect x y w h) := by
  unfold PDFPage.setClipRect
  exact az_comp (az_comp
    (az_push (qDelta_append_space _ " re" (by decide)))
    (az_push (by decide)))
    (az_push (by decide))

theorem drawLine_block (x1 y1 x2 y2 : ℚ) (o : DrawLineOptions) (pg : PDFPage) :
    ∃ bl, (pg.drawLine x1 y1 x2 y2 o).commands = pg.commands ++ bl ∧ qBalanced bl := by
  rcases o with ⟨color, width⟩
  unfold PDFPage.drawLine
  have hm : qDelta (fmtQ x1 ++ " " ++ fmtQ y1 ++ " m") = 0 :=
    qDelta_append_space _ " m" (by decide)
  have hl : qDelta (fmtQ x2 ++ " " ++ fmtQ y2 ++ " l") = 0 :=
    qDelta_append_space _ " l" (by decide)
  have hS : qDelta "S" = 0 := by decide
  cases color with
  | none =>
    cases width with
    | none =>
      refine ⟨"q" :: [fmtQ x1 ++ " " ++ fmtQ y1 ++ " m", fmtQ x2 ++ " " ++ fmtQ y2 ++ " l",
        "S"] ++ ["Q"], ?_, qBalanced_wrap _ ?_⟩
      · simp [PDFPage.opSaveState, PDFPage.opRestoreState, PDFPage.opMoveTo, PDFPage.opLineTo,
          PDFPage.opStroke, PDFPage.push]
      · intro c hc
        simp at hc
        rcases hc with rfl | rfl | rfl
        exacts [hm, hl, hS]
    | some w =>
      refine ⟨"q" :: [fmtQ w ++ " w", fmtQ x1 ++ " " ++ fmtQ y1 ++ " m",
        fmtQ x2 ++ " " ++ fmtQ y2 ++ " l", "S"] ++ ["Q"], ?_, qBalanced_wrap _ ?_⟩
      · simp [PDFPage.opSaveState, PDFPage.opRestoreState, PDFPage.opSetLineWidth,
          PDFPage.opMoveTo, PDFPage.opLineTo, PDFPage.opStroke, PDFPage.push]
      · intro c hc
        simp at hc
        rcases hc with rfl | rfl | rfl | rfl
        exacts [qDelta_append_space _ " w" (by decide), hm, hl, hS]
  | some col =>
    have hRG : qDelta (fmtQ col.r ++ " " ++ fmtQ col.g ++ " " ++ fmtQ col.b ++ " RG") = 0 :=
      qDelta_append_space _ " RG" (by decide)
    cases width with
    | none =>
      refine ⟨"q" :: [fmtQ col.r ++ " " ++ fmtQ col.g ++ " " ++ fmtQ col.b ++ " RG",
        fmtQ x1 ++ " " ++ fmtQ y1 ++ " m", fmtQ x2 ++ " " ++ fmtQ y2 ++ " l", "S"] ++ ["Q"],
        ?_, qBalanced_wrap _ ?_⟩
      · simp [PDFPage.opSaveState, PDFPage.opRestoreState, PDFPage.opSetStrokeColorRGB,
          PDFPage.opMoveTo, PDFPage.opLineTo, PDFPage.opStroke, PDFPage.push]
      · intro c hc
        simp at hc
        rcases hc with rfl | rfl | rfl | rfl
        exacts [hRG, hm, hl, hS]
    | some w =>
      refine ⟨"q" :: [fmtQ w ++ " w", fmtQ col.r ++ " " ++ fmtQ col.g ++ " " ++ fmtQ col.b
        ++ " RG", fmtQ x1 ++ " " ++ fmtQ y1 ++ " m", fmtQ x2 ++ " " ++ fmtQ y2 ++ " l",
        "S"] ++ ["Q"], ?_, qBalanced_wrap _ ?_⟩
      · simp [PDFPage.opSaveState, PDFPage.opRestoreState, PDFPage.opSetLineWidth,
          PDFPage.opSetStrokeColorRGB, PDFPage.opMoveTo, PDFPage.opLineTo,
          PDFPage.opStroke, PDFPage.push]
      · intro c hc
        simp at hc
        rcases hc with rfl | rfl | rfl | rfl | rfl
        exacts [qDelta_append_space _ " w" (by decide), hRG, hm, hl, hS]

theorem drawRect_block (x y w h : ℚ) (o : DrawRectOptions) (pg : PDFPage) :
    ∃ bl, (pg.drawRect x y w h o).commands = pg.commands ++ bl ∧ qBalanced bl := by
  rcases o with ⟨fill, stroke, lineWidth⟩
  unfold PDFPage.drawRect
  have hre : qDelta (fmtQ x ++ " " ++ fmtQ y ++ " " ++ fmtQ w ++ " " ++ fmtQ h ++ " re") = 0 :=
    qDelta_append_space _ " re" (by decide)
  have hlw : ∀ lw : ℚ, qDelta (fmtQ lw ++ " w") = 0 :=
    fun lw => qDelta_append_space _ " w" (by decide)
  have hrg : ∀ c : RGBColor, qDelta (fmtQ c.r ++ " " ++ fmtQ c.g ++ " " ++ fmtQ c.b
      ++ " rg") = 0 :=
    fun c => qDelta_append_space _ " rg" (by decide)
  have hRG : ∀ c : RGBColor, qDelta (fmtQ c.r ++ " " ++ fmtQ c.g ++ " " ++ fmtQ c.b
      ++ " RG") = 0 :=
    fun c => qDelta_append_space _ " RG" (by decide)
  have hS : qDelta "S" = 0 := by decide
  have hf : qDelta "f" = 0 := by decide
  have hB : qDelta "B" = 0 := by decide
  have hsimp : ∀ (l : List String), (∀ c ∈ l, qDelta c = 0) →
      ∃ bl, pg.commands ++ ("q" :: l ++ ["Q"]) = pg.commands ++ bl ∧ qBalanced bl :=
    fun l hz => ⟨_, rfl, qBalanced_wrap l hz⟩
  cases lineWidth with
  | none =>
    cases fill with
    | none =>
      cases stroke with
      | none =>
        refine ⟨"q" :: [fmtQ x ++ " " ++ fmtQ y ++ " " ++ fmtQ w ++ " " ++ fmtQ h ++ " re"]
          ++ ["Q"], ?_, qBalanced_wrap _ ?_⟩
        · simp [PDFPage.opSaveState, PDFPage.opRestoreState, PDFPage.opRect, PDFPage.push]
        · intro c hc
          simp at hc
          rw [hc]
          exact hre
      | some sc =>
        refine ⟨"q" :: [fmtQ x ++ " " ++ fmtQ y ++ " " ++ fmtQ w ++ " " ++ fmtQ h ++ " re",
          fmtQ sc.r ++ " " ++ fmtQ sc.g ++ " " ++ fmtQ sc.b ++ " RG", "S"] ++ ["Q"], ?_,
          qBalanced_wrap _ ?_⟩
        · simp [PDFPage.opSaveState, PDFPage.opRestoreState, PDFPage.opRect,
            PDFPage.opSetStrokeColorRGB, PDFPage.opStroke, PDFPage.push]
        · intro c hc
          simp at hc
          rcases hc with rfl | rfl | rfl
          exacts [hre, hRG sc, hS]
    | some fc =>
      cases stroke with
      | none =>
        refine ⟨"q" :: [fmtQ x ++ " " ++ fmtQ y ++ " " ++ fmtQ w ++ " " ++ fmtQ h ++ " re",
          fmtQ fc.r ++ " " ++ fmtQ fc.g ++ " " ++ fmtQ fc.b ++ " rg", "f"] ++ ["Q"], ?_,
          qBalanced_wrap _ ?_⟩
        · simp [PDFPage.opSaveState, PDFPage.opRestoreState, PDFPage.opRect,
            PDFPage.opSetFillColorRGB, PDFPage.opFill, PDFPage.push]
        · intro c hc
          simp at hc
          rcases hc with rfl | rfl | rfl
          exacts [hre, hrg fc, hf]
      | some sc =>
        refine ⟨"q" :: [fmtQ x ++ " " ++ fmtQ y ++ " " ++ fmtQ w ++ " " ++ fmtQ h ++ " re",
          fmtQ fc.r ++ " " ++ fmtQ fc.g ++ " " ++ fmtQ fc.b ++ " rg",
          fmtQ sc.r ++ " " ++ fmtQ sc.g ++ " " ++ fmtQ sc.b ++ " RG", "B"] ++ ["Q"], ?_,
          qBalanced_wrap _ ?_⟩
        · simp [PDFPage.opSaveState, PDFPage.opRestoreState, PDFPage.opRect,
            PDFPage.opSetFillColorRGB, PDFPage.opSetStrokeColorRGB, PDFPage.opFillAndStroke,
            PDFPage.push]
        · intro c hc
          simp at hc
          rcases hc with rfl | rfl | rfl | rfl
          exacts [hre, hrg fc, hRG sc, hB]
  | some lw =>
    cases fill with
    | none =>
      cases stroke with
      | none =>
        refine ⟨"q" :: [fmtQ lw ++ " w",
          fmtQ x ++ " " ++ fmtQ y ++ " " ++ fmtQ w ++ " " ++ fmtQ h ++ " re"] ++ ["Q"], ?_,
          qBalanced_wrap _ ?_⟩
        · simp [PDFPage.opSaveState, PDFPage.opRestoreState, PDFPage.opSetLineWidth,
            PDFPage.opRect, PDFPage.push]
        · intro c hc
          simp at hc
          rcases hc with rfl | rfl
          exacts [hlw lw, hre]
      | some sc =>
        refine ⟨"q" :: [fmtQ lw ++ " w",
          fmtQ x ++ " " ++ fmtQ y ++ " " ++ fmtQ w ++ " " ++ fmtQ h ++ " re",
          fmtQ sc.r ++ " " ++ fmtQ sc.g ++ " " ++ fmtQ sc.b ++ " RG", "S"] ++ ["Q"], ?_,
          qBalanced_wrap _ ?_⟩
        · simp [PDFPage.opSaveState, PDFPage.opRestoreState, PDFPage.opSetLineWidth,
            PDFPage.opRect, PDFPage.opSetStrokeColorRGB, PDFPage.opStroke, PDFPage.push]
        · intro c hc
          simp at hc
          rcases hc with rfl | rfl | rfl | rfl
          exacts [hlw lw, hre, hRG sc, hS]
    | some fc =>
      cases stroke with
      | none =>
        refine ⟨"q" :: [fmtQ lw ++ " w",
          fmtQ x ++ " " ++ fmtQ y ++ " " ++ fmtQ w ++ " " ++ fmtQ h ++ " re",
          fmtQ fc.r ++ " " ++ fmtQ fc.g ++ " " ++ fmtQ fc.b ++ " rg", "f"] ++ ["Q"], ?_,
          qBalanced_wrap _ ?_⟩
        · simp [PDFPage.opSaveState, PDFPage.opRestoreState, PDFPage.opSetLineWidth,
            PDFPage.opRect, PDFPage.opSetFillColorRGB, PDFPage.opFill, PDFPage.push]
        · intro c hc
          simp at hc
          rcases hc with rfl | rfl | rfl | rfl
          exacts [hlw lw, hre, hrg fc, hf]
      | some sc =>
        refine ⟨"q" :: [fmtQ lw ++ " w",
          fmtQ x ++ " " ++ fmtQ y ++ " " ++ fmtQ w ++ " " ++ fmtQ h ++ " re",
          fmtQ fc.r ++ " " ++ fmtQ fc.g ++ " " ++ fmtQ fc.b ++ " rg",
          fmtQ sc.r ++ " " ++ fmtQ sc.g ++ " " ++ fmtQ sc.b ++ " RG", "B"] ++ ["Q"], ?_,
          qBalanced_wrap _ ?_⟩
        · simp [PDFPage.opSaveState, PDFPage.opRestoreState, PDFPage.opSetLineWidth,
            PDFPage.opRect, PDFPage.opSetFillColorRGB, PDFPage.opSetStrokeColorRGB,
            PDFPage.opFillAndStroke, PDFPage.push]
        · intro c hc
          simp at hc
          rcases hc with rfl | rfl | rfl | rfl | rfl
          exacts [hlw lw, hre, hrg fc, hRG sc, hB]

theorem drawImage_block (name : String) (x y w h : ℚ) (pg : PDFPage) :
    ∃ bl, (pg.drawImage name x y w h).commands = pg.commands ++ bl ∧ qBalanced bl := by
  unfold PDFPage.drawImage
  refine ⟨"q" :: [fmtQ w ++ " " ++ fmtQ 0 ++ " " ++ fmtQ 0 ++ " " ++ fmtQ h ++ " " ++ fmtQ x
    ++ " " ++ fmtQ y ++ " cm", "/" ++ name ++ " Do"] ++ ["Q"], ?_, qBalanced_wrap _ ?_⟩
  · simp [PDFPage.opSaveState, PDFPage.opRestoreState, PDFPage.opTransform,
      PDFPage.opDrawImage, PDFPage.push]
  · intro c hc
    simp at hc
    rcases hc with rfl | rfl
    exacts [qDelta_append_space _ " cm" (by decide), qDelta_append_space _ " Do" (by decide)]

theorem applyDraw_block (c : DrawCall) (pg : PDFPage) :
    ∃ bl, (applyDraw pg c).commands = pg.commands ++ bl ∧ qBalanced bl := by
  cases c with
  | text t x y o =>
    obtain ⟨bl, e, hz⟩ := az_drawText t x y o pg
    exact ⟨bl, e, qBalanced_of_zero bl hz⟩
  | textUnicode t x y o =>
    obtain ⟨bl, e, hz⟩ := az_drawTextUnicode t x y o pg
    exact ⟨bl, e, qBalanced_of_zero bl hz⟩
  | textCID t x y o =>
    obtain ⟨bl, e, hz⟩ := az_drawTextCID t x y o pg
    exact ⟨bl, e, qBalanced_of_zero bl hz⟩
  | line x1 y1 x2 y2 o => exact drawLine_block x1 y1 x2 y2 o pg
  | rect x y w h o => exact drawRect_block x y w h o pg
  | image n x y w h => exact drawImage_block n x y w h pg
  | clipRect x y w h =>
    obtain ⟨bl, e, hz⟩ := az_setClipRect x y w h pg
    exact ⟨bl, e, qBalanced_of_zero bl hz⟩

theorem qSum_count (l : List String) :
    qSum l = (l.count "q" : Int) - (l.count "Q" : Int) := by
  induction l with
  | nil => simp [qSum]
  | cons a l ih =>
    have ih' : (l.map qDelta).sum = (l.count "q" : Int) - (l.count "Q" : Int) := ih
    simp only [qSum, List.map_cons, List.sum_cons]
    by_cases ha : a = "q"
    · subst ha
      rw [show qDelta "q" = 1 from by decide, ih', List.count_cons_self,
        List.count_cons_of_ne (show ("Q" : String) ≠ "q" from by decide)]
      push_cast
      ring
    · by_cases ha2 : a = "Q"
      · subst ha2
        rw [show qDelta "Q" = -1 from by decide, ih', List.count_cons_self,
          List.count_cons_of_ne (show ("q" : String) ≠ "Q" from by decide)]
        push_cast
        ring
      · rw [show qDelta a = 0 from by simp [qDelta, ha, ha2], ih',
          List.count_cons_of_ne (fun hcon => ha hcon.symm),
          List.count_cons_of_ne (fun hcon => ha2 hcon.symm)]
        ring

/-- C10: any sequence of high-level draw calls (without direct save/restore
calls) leaves the content stream correctly nested: `q` and `Q` counts agree,
and no prefix of the command list has more `Q` than `q` operators. -/
theorem claim_C10_state_nesting :
    ∀ (w h : ℚ) (calls : List DrawCall),
      (applyDraws (PDFPage.mk0 w h) calls).commands.count "q"
        = (applyDraws (PDFPage.mk0 w h) calls).commands.count "Q"
      ∧ ∀ n : Nat,
        ((applyDraws (PDFPage.mk0 w h) calls).commands.take n).count "Q"
          ≤ ((applyDraws (PDFPage.mk0 w h) calls).commands.take n).count "q" := by
  intro w h calls
  have key : ∀ (cs : List DrawCall) (pg : PDFPage),
      qBalanced pg.commands → qBalanced (applyDraws pg cs).commands := by
    intro cs
    induction cs with
    | nil => intro pg hp; exact hp
    | cons c rest ih =>
      intro pg hp
      show qBalanced (applyDraws (applyDraw pg c) rest).commands
      apply ih
      obtain ⟨bl, e, hb⟩ := applyDraw_block c pg
      rw [e]
      exact qBalanced_append hp hb
  have hfresh : qBalanced (PDFPage.mk0 w h).commands := by
    refine ⟨rfl, fun n => ?_⟩
    show 0 ≤ qSum (([] : List String).take n)
    simp [qSum]
  have hbal := key calls (PDFPage.mk0 w h) hfresh
  constructor
  · have h1 := hbal.1
    rw [qSum_count] at h1
    omega
  · intro n
    have h2 := hbal.2 n
    rw [qSum_count] at h2
    omega

/-! ## Resource references in draw calls -/

theorem applyDraw_resources (pg : PDFPage) (c : DrawCall) :
    (applyDraw pg c).fonts = pg.fonts ∧ (applyDraw pg c).images = pg.images := by
  cases c with
  | text t x y o =>
    constructor <;>
      (simp only [applyDraw, PDFPage.drawText, PDFPage.setFontIfChanged, PDFPage.opBeginText,
        PDFPage.opEndText, PDFPage.opSetFillColorRGB, PDFPage.opSetFont, PDFPage.opMoveText,
        PDFPage.opShowText, PDFPage.opSetCharacterSpacing, PDFPage.push] <;>
       cases o.color <;> split_ifs <;> rfl)
  | textUnicode t x y o =>
    constructor <;>
      (simp only [applyDraw, PDFPage.drawTextUnicode, PDFPage.setFontIfChanged,
        PDFPage.opBeginText, PDFPage.opEndText, PDFPage.opSetFillColorRGB, PDFPage.opSetFont,
        PDFPage.opMoveText, PDFPage.opShowTextHex, PDFPage.push] <;>
       cases o.color <;> split_ifs <;> rfl)
  | textCID t x y o =>
    constructor <;>
      (simp only [applyDraw, PDFPage.drawTextCID, PDFPage.setFontIfChanged,
        PDFPage.opBeginText, PDFPage.opEndText, PDFPage.opSetFillColorRGB, PDFPage.opSetFont,
        PDFPage.opMoveText, PDFPage.opShowTextHexRaw, PDFPage.opSetCharacterSpacing,
        PDFPage.push] <;>
       cases o.color <;> split_ifs <;> rfl)
  | line x1 y1 x2 y2 o =>
    constructor <;>
      (simp only [applyDraw, PDFPage.drawLine, PDFPage.opSaveState, PDFPage.opRestoreState,
        PDFPage.opSetLineWidth, PDFPage.opSetStrokeColorRGB, PDFPage.opMoveTo,
        PDFPage.opLineTo, PDFPage.opStroke, PDFPage.push] <;>
       cases o.color <;> cases o.width <;> rfl)
  | rect x y w h o =>
    constructor <;>
      (simp only [applyDraw, PDFPage.drawRect, PDFPage.opSaveState, PDFPage.opRestoreState,
        PDFPage.opSetLineWidth, PDFPage.opRect, PDFPage.opSetFillColorRGB,
        PDFPage.opSetStrokeColorRGB, PDFPage.opFill, PDFPage.opStroke,
        PDFPage.opFillAndStroke, PDFPage.push] <;>
       cases o.fill <;> cases o.stroke <;> cases o.lineWidth <;> rfl)
  | image n x y w h => exact ⟨rfl, rfl⟩
  | clipRect x y w h => exact ⟨rfl, rfl⟩

/-- C9 (amended): the draw calls never consult the per-page resource maps —
the emitted commands are unchanged under any replacement of the font and
image maps, and drawing with an unregistered key still appends operators
that reference that key (`/F1 … Tf`, `/Im1 Do`) to the content stream, so a
dangling resource reference is possible; the draw calls also never register
resources themselves. -/
theorem claim_C9_unregistered_resources :
    (∀ (pg : PDFPage) (c : DrawCall),
      (applyDraw pg c).fonts = pg.fonts ∧ (applyDraw pg c).images = pg.images)
    ∧ (∀ (pg : PDFPage) (F I : List (String × Nat)) (c : DrawCall),
        (applyDraw { pg with fonts := F, images := I } c).commands
          = (applyDraw pg c).commands)
    ∧ ((PDFPage.mk0 595 842).drawText "hi" 50 750 { font := "F1", fontSize := 12 }).commands
        = ["BT", "/F1 12 Tf", "50 750 Td", "(hi) Tj", "ET"]
    ∧ (PDFPage.mk0 595 842).fonts.lookup "F1" = none
    ∧ ((PDFPage.mk0 595 842).drawImage "Im1" 1 2 3 4).commands
        = ["q", "3 0 0 4 1 2 cm", "/Im1 Do", "Q"]
    ∧ (PDFPage.mk0 595 842).images.lookup "Im1" = none := by
  refine ⟨applyDraw_resources, fun pg F I c => ?_,
    by with_unfolding_all rfl, rfl, by with_unfolding_all rfl, rfl⟩
  cases c with
  | text t x y o =>
    simp only [applyDraw, PDFPage.drawText, PDFPage.setFontIfChanged, PDFPage.opBeginText,
      PDFPage.opEndText, PDFPage.opSetFillColorRGB, PDFPage.opSetFont, PDFPage.opMoveText,
      PDFPage.opShowText, PDFPage.opSetCharacterSpacing, PDFPage.push]
    cases o.color <;> dsimp only [] <;> split_ifs <;> rfl
  | textUnicode t x y o =>
    simp only [applyDraw, PDFPage.drawTextUnicode, PDFPage.setFontIfChanged,
      PDFPage.opBeginText, PDFPage.opEndText, PDFPage.opSetFillColorRGB, PDFPage.opSetFont,
      PDFPage.opMoveText, PDFPage.opShowTextHex, PDFPage.push]
    cases o.color <;> dsimp only [] <;> split_ifs <;> rfl
  | textCID t x y o =>
    simp only [applyDraw, PDFPage.drawTextCID, PDFPage.setFontIfChanged, PDFPage.opBeginText,
      PDFPage.opEndText, PDFPage.opSetFillColorRGB, PDFPage.opSetFont, PDFPage.opMoveText,
      PDFPage.opShowTextHexRaw, PDFPage.opSetCharacterSpacing, PDFPage.push]
    cases o.color <;> dsimp only [] <;> split_ifs <;> rfl
  | line x1 y1 x2 y2 o =>
    simp only [applyDraw, PDFPage.drawLine, PDFPage.opSaveState, PDFPage.opRestoreState,
      PDFPage.opSetLineWidth, PDFPage.opSetStrokeColorRGB, PDFPage.opMoveTo, PDFPage.opLineTo,
      PDFPage.opStroke, PDFPage.push]
    cases o.color <;> cases o.width <;> rfl
  | rect x y w h o =>
    simp only [applyDraw, PDFPage.drawRect, PDFPage.opSaveState, PDFPage.opRestoreState,
      PDFPage.opSetLineWidth, PDFPage.opRect, PDFPage.opSetFillColorRGB,
      PDFPage.opSetStrokeColorRGB, PDFPage.opFill, PDFPage.opStroke, PDFPage.opFillAndStroke,
      PDFPage.push]
    cases o.fill <;> cases o.stroke <;> cases o.lineWidth <;> rfl
  | image n x y w h => rfl
  | clipRect x y w h => rfl

/-- C9 counterexample: on a fresh page with empty resource maps, a draw call
with the unregistered keys `F1` and `Im1` is neither a no-op nor an error —
it appends operators that reference the unregistered names. -/
theorem claim_C9_counterexample :
    (PDFPage.mk0 595 842).fonts = []
    ∧ ((PDFPage.mk0 595 842).drawText "hi" 50 750
        { font := "F1", fontSize := 12 }).commands ≠ []
    ∧ "/F1 12 Tf" ∈ ((PDFPage.mk0 595 842).drawText "hi" 50 750
        { font := "F1", fontSize := 12 }).commands
    ∧ (PDFPage.mk0 595 842).images = []
    ∧ "/Im1 Do" ∈ ((PDFPage.mk0 595 842).drawImage "Im1" 1 2 3 4).commands := by
  refine ⟨rfl, by with_unfolding_all decide, by with_unfolding_all decide, rfl,
    by with_unfolding_all decide⟩

end CarbonCopy
